import Mathlib

/-!
Verification development for the pst-utils mail-extraction pipeline.

The Python sources under src/src (helper.py, main.py, db_actions.py) are
shallowly embedded below: bytes are `List Nat` (each element a byte value),
Python `str` is `String`, exceptions are `Option`/`Except`, and the stateful
parts (filesystem writes, the SQLite store, clock and uuid calls) are passed
as explicit state plus oracle functions.  External collaborators (the pypff
archive reader, the Python standard library email parser, charset-normalizer)
are modelled at their interface: they appear as record fields or function
parameters that the theorems quantify over.
-/

set_option maxRecDepth 4000

namespace PstUtils

/-! ## Basic character and string helpers -/

def strOfChars (cs : List Char) : String := String.mk cs

/-- Python str.lower restricted to ASCII letters; the folder names and codec
names compared in the source are ASCII or Korean (case-invariant). -/
def toLowerStr (s : String) : String := strOfChars (s.data.map Char.toLower)

def toUpperStr (s : String) : String := strOfChars (s.data.map Char.toUpper)

/-- The character class of the Python regex token \s (ASCII range). -/
def isPyWs (c : Char) : Bool :=
  c == ' ' || c == '\t' || c == '\n' || c == '\r' || c == '\x0b' || c == '\x0c'

def pyStripChars (cs : List Char) : List Char :=
  ((cs.dropWhile isPyWs).reverse.dropWhile isPyWs).reverse

/-- Python str.strip() with no argument (whitespace both ends). -/
def pyStrip (s : String) : String := strOfChars (pyStripChars s.data)

/-- Python str.rstrip(chars) for an explicit character set. -/
def pyRstripSet (set : List Char) (s : String) : String :=
  strOfChars ((s.data.reverse.dropWhile (set.contains ·)).reverse)

/-- Python str.rstrip(chr(0)) used after legacy string decoding. -/
def rstripNulls (s : String) : String := pyRstripSet ['\x00'] s

/-- Python str.startswith, via character lists (the core String.startsWith
does not reduce in the kernel). -/
def strStartsWith (s pre : String) : Bool := pre.data.isPrefixOf s.data

/-! ## Codec models

Each Python codec used by the source is modelled as a strict decoder
(`Option`-valued: `none` is `UnicodeDecodeError`) and a replacing decoder
(total, inserting U+FFFD).  UTF-8, UTF-16-LE, Latin-1, CP1252 and ASCII are
modelled exactly.  For the table-driven Korean codecs (cp949, euc-kr) the
success domain is modelled at byte-range granularity and the code-point table
is represented by an injective arithmetic stand-in: every claim proved below
depends only on which decode steps can succeed or fail, never on the identity
of a decoded Korean character. -/

def replacementChar : Char := '�'

/-- Decode one UTF-8 scalar starting with lead byte `b`; returns the decoded
character and the remaining input. -/
def utf8Step (b : Nat) (rest : List Nat) : Option (Char × List Nat) :=
  let cont : Nat → Bool := fun c => 0x80 ≤ c && c ≤ 0xBF
  if b < 0x80 then
    some (Char.ofNat b, rest)
  else if 0xC2 ≤ b && b ≤ 0xDF then
    match rest with
    | c1 :: r =>
      if cont c1 then some (Char.ofNat ((b - 0xC0) * 64 + (c1 - 0x80)), r) else none
    | [] => none
  else if 0xE0 ≤ b && b ≤ 0xEF then
    match rest with
    | c1 :: c2 :: r =>
      let okC1 : Bool :=
        if b = 0xE0 then 0xA0 ≤ c1 && c1 ≤ 0xBF
        else if b = 0xED then 0x80 ≤ c1 && c1 ≤ 0x9F
        else cont c1
      if okC1 && cont c2 then
        some (Char.ofNat ((b - 0xE0) * 4096 + (c1 - 0x80) * 64 + (c2 - 0x80)), r)
      else none
    | _ => none
  else if 0xF0 ≤ b && b ≤ 0xF4 then
    match rest with
    | c1 :: c2 :: c3 :: r =>
      let okC1 : Bool :=
        if b = 0xF0 then 0x90 ≤ c1 && c1 ≤ 0xBF
        else if b = 0xF4 then 0x80 ≤ c1 && c1 ≤ 0x8F
        else cont c1
      if okC1 && cont c2 && cont c3 then
        some (Char.ofNat ((b - 0xF0) * 262144 + (c1 - 0x80) * 4096 +
          (c2 - 0x80) * 64 + (c3 - 0x80)), r)
      else none
    | _ => none
  else none

theorem utf8Step_length {b : Nat} {rest r : List Nat} {c : Char}
    (h : utf8Step b rest = some (c, r)) : r.length ≤ rest.length := by
  unfold utf8Step at h
  repeat' split at h
  all_goals simp_all
  all_goals omega

def utf8StrictAux : List Nat → Option (List Char)
  | [] => some []
  | b :: rest =>
    match h : utf8Step b rest with
    | some (c, r) => (utf8StrictAux r).map (c :: ·)
    | none => none
termination_by l => l.length
decreasing_by
  have := utf8Step_length h
  simp only [List.length_cons]
  omega

def utf8Strict (data : List Nat) : Option String :=
  (utf8StrictAux data).map strOfChars

def utf8ReplaceAux : List Nat → List Char
  | [] => []
  | b :: rest =>
    match h : utf8Step b rest with
    | some (c, r) => c :: utf8ReplaceAux r
    | none => replacementChar :: utf8ReplaceAux rest
termination_by l => l.length
decreasing_by
  · have := utf8Step_length h
    simp only [List.length_cons]
    omega
  · simp only [List.length_cons]
    omega

/-- Total UTF-8 decode with per-byte U+FFFD substitution (the granularity of
replacement runs differs from CPython; no claim depends on it). -/
def utf8Replace (data : List Nat) : String := strOfChars (utf8ReplaceAux data)

def isHighSurrogate (u : Nat) : Bool := 0xD800 ≤ u && u ≤ 0xDBFF
def isLowSurrogate (u : Nat) : Bool := 0xDC00 ≤ u && u ≤ 0xDFFF

/-- Decode one UTF-16 scalar given the first code unit `u`; a high surrogate
consumes two further bytes from `rest`. -/
def utf16leStep (u : Nat) (rest : List Nat) : Option (Char × List Nat) :=
  if isHighSurrogate u then
    match rest with
    | b2 :: b3 :: r =>
      let u2 := b2 + 256 * b3
      if isLowSurrogate u2 then
        some (Char.ofNat (0x10000 + (u - 0xD800) * 1024 + (u2 - 0xDC00)), r)
      else none
    | _ => none
  else if isLowSurrogate u then none
  else some (Char.ofNat u, rest)

theorem utf16leStep_length {u : Nat} {rest r : List Nat} {c : Char}
    (h : utf16leStep u rest = some (c, r)) : r.length ≤ rest.length := by
  unfold utf16leStep at h
  repeat' split at h
  all_goals simp_all
  omega

def utf16leStrictAux : List Nat → Option (List Char)
  | [] => some []
  | [_] => none
  | b0 :: b1 :: rest =>
    match h : utf16leStep (b0 + 256 * b1) rest with
    | some (c, r) => (utf16leStrictAux r).map (c :: ·)
    | none => none
termination_by l => l.length
decreasing_by
  have := utf16leStep_length h
  simp only [List.length_cons]
  omega

def utf16leStrict (data : List Nat) : Option String :=
  (utf16leStrictAux data).map strOfChars

def utf16leReplaceAux : List Nat → List Char
  | [] => []
  | [_] => [replacementChar]
  | b0 :: b1 :: rest =>
    match h : utf16leStep (b0 + 256 * b1) rest with
    | some (c, r) => c :: utf16leReplaceAux r
    | none => replacementChar :: utf16leReplaceAux rest
termination_by l => l.length
decreasing_by
  · have := utf16leStep_length h
    simp only [List.length_cons]
    omega
  · simp only [List.length_cons]
    omega

def utf16leReplace (data : List Nat) : String := strOfChars (utf16leReplaceAux data)

/-- Windows-1252: code points for the 0x80-0x9F block; `none` marks the five
unassigned bytes that make a strict decode fail. -/
def cp1252Map (b : Nat) : Option Nat :=
  match b with
  | 0x80 => some 0x20AC
  | 0x82 => some 0x201A
  | 0x83 => some 0x0192
  | 0x84 => some 0x201E
  | 0x85 => some 0x2026
  | 0x86 => some 0x2020
  | 0x87 => some 0x2021
  | 0x88 => some 0x02C6
  | 0x89 => some 0x2030
  | 0x8A => some 0x0160
  | 0x8B => some 0x2039
  | 0x8C => some 0x0152
  | 0x8E => some 0x017D
  | 0x91 => some 0x2018
  | 0x92 => some 0x2019
  | 0x93 => some 0x201C
  | 0x94 => some 0x201D
  | 0x95 => some 0x2022
  | 0x96 => some 0x2013
  | 0x97 => some 0x2014
  | 0x98 => some 0x02DC
  | 0x99 => some 0x2122
  | 0x9A => some 0x0161
  | 0x9B => some 0x203A
  | 0x9C => some 0x0153
  | 0x9E => some 0x017E
  | 0x9F => some 0x0178
  | b =>
    if b = 0x81 || b = 0x8D || b = 0x8F || b = 0x90 || b = 0x9D then none
    else some b

def cp1252Strict (data : List Nat) : Option String :=
  (data.mapM (fun b => (cp1252Map b).map Char.ofNat)).map strOfChars

def cp1252Replace (data : List Nat) : String :=
  strOfChars (data.map (fun b => match cp1252Map b with
    | some cp => Char.ofNat cp
    | none => replacementChar))

/-- ISO-8859-1 / Latin-1: every byte decodes to the same code point, so the
strict decoder is total. -/
def latin1Chars (data : List Nat) : List Char := data.map Char.ofNat

def latin1Strict (data : List Nat) : Option String := some (strOfChars (latin1Chars data))

def latin1Replace (data : List Nat) : String := strOfChars (latin1Chars data)

def asciiStrict (data : List Nat) : Option String :=
  if data.all (· < 0x80) then some (strOfChars (latin1Chars data)) else none

def asciiReplace (data : List Nat) : String :=
  strOfChars (data.map (fun b => if b < 0x80 then Char.ofNat b else replacementChar))

/-- Python bytes.decode(ascii, ignore): bytes at or above 0x80 are dropped. -/
def asciiIgnore (data : List Nat) : List Char :=
  latin1Chars (data.filter (· < 0x80))

/-- CP949 trail-byte index (0x41-0x5A, 0x61-0x7A, 0x81-0xFE). -/
def cp949TrailIdx (t : Nat) : Option Nat :=
  if 0x41 ≤ t && t ≤ 0x5A then some (t - 0x41)
  else if 0x61 ≤ t && t ≤ 0x7A then some (26 + (t - 0x61))
  else if 0x81 ≤ t && t ≤ 0xFE then some (52 + (t - 0x81))
  else none

/-- Decode one cp949 unit starting with byte `b`. -/
def cp949Step (b : Nat) (rest : List Nat) : Option (Char × List Nat) :=
  if b < 0x80 then some (Char.ofNat b, rest)
  else if 0x81 ≤ b && b ≤ 0xFE then
    match rest with
    | t :: r =>
      match cp949TrailIdx t with
      | some i => some (Char.ofNat (0x2000 + (b - 0x81) * 190 + i), r)
      | none => none
    | [] => none
  else none

theorem cp949Step_length {b : Nat} {rest r : List Nat} {c : Char}
    (h : cp949Step b rest = some (c, r)) : r.length ≤ rest.length := by
  unfold cp949Step at h
  repeat' split at h
  all_goals simp_all

def cp949StrictAux : List Nat → Option (List Char)
  | [] => some []
  | b :: rest =>
    match h : cp949Step b rest with
    | some (c, r) => (cp949StrictAux r).map (c :: ·)
    | none => none
termination_by l => l.length
decreasing_by
  have := cp949Step_length h
  simp only [List.length_cons]
  omega

def cp949Strict (data : List Nat) : Option String :=
  (cp949StrictAux data).map strOfChars

def cp949ReplaceAux : List Nat → List Char
  | [] => []
  | b :: rest =>
    match h : cp949Step b rest with
    | some (c, r) => c :: cp949ReplaceAux r
    | none => replacementChar :: cp949ReplaceAux rest
termination_by l => l.length
decreasing_by
  · have := cp949Step_length h
    simp only [List.length_cons]
    omega
  · simp only [List.length_cons]
    omega

def cp949Replace (data : List Nat) : String := strOfChars (cp949ReplaceAux data)

/-- Decode one euc-kr unit starting with byte `b`. -/
def euckrStep (b : Nat) (rest : List Nat) : Option (Char × List Nat) :=
  if b < 0x80 then some (Char.ofNat b, rest)
  else if 0xA1 ≤ b && b ≤ 0xFE then
    match rest with
    | t :: r =>
      if 0xA1 ≤ t && t ≤ 0xFE then
        some (Char.ofNat (0x3000 + (b - 0xA1) * 94 + (t - 0xA1)), r)
      else none
    | [] => none
  else none

theorem euckrStep_length {b : Nat} {rest r : List Nat} {c : Char}
    (h : euckrStep b rest = some (c, r)) : r.length ≤ rest.length := by
  unfold euckrStep at h
  repeat' split at h
  all_goals simp_all

def euckrStrictAux : List Nat → Option (List Char)
  | [] => some []
  | b :: rest =>
    match h : euckrStep b rest with
    | some (c, r) => (euckrStrictAux r).map (c :: ·)
    | none => none
termination_by l => l.length
decreasing_by
  have := euckrStep_length h
  simp only [List.length_cons]
  omega

def euckrStrict (data : List Nat) : Option String :=
  (euckrStrictAux data).map strOfChars

def euckrReplaceAux : List Nat → List Char
  | [] => []
  | b :: rest =>
    match h : euckrStep b rest with
    | some (c, r) => c :: euckrReplaceAux r
    | none => replacementChar :: euckrReplaceAux rest
termination_by l => l.length
decreasing_by
  · have := euckrStep_length h
    simp only [List.length_cons]
    omega
  · simp only [List.length_cons]
    omega

def euckrReplace (data : List Nat) : String := strOfChars (euckrReplaceAux data)

structure Codec where
  strict : List Nat → Option String
  repl : List Nat → String

def utf8Codec : Codec := ⟨utf8Strict, utf8Replace⟩
def utf16leCodec : Codec := ⟨utf16leStrict, utf16leReplace⟩
def latin1Codec : Codec := ⟨latin1Strict, latin1Replace⟩
def cp1252Codec : Codec := ⟨cp1252Strict, cp1252Replace⟩
def cp949Codec : Codec := ⟨cp949Strict, cp949Replace⟩
def euckrCodec : Codec := ⟨euckrStrict, euckrReplace⟩
def asciiCodec : Codec := ⟨asciiStrict, asciiReplace⟩

/-- Python codecs.lookup on the (lower-cased) codec names that occur in the
source; unknown names raise LookupError, modelled as `none`. -/
def lookupCodec (name : String) : Option Codec :=
  if name = "utf-8" || name = "utf8" then some utf8Codec
  else if name = "utf-16-le" || name = "utf-16le" || name = "utf-16" || name = "utf16" then
    some utf16leCodec
  else if name = "iso-8859-1" || name = "iso8859-1" || name = "latin-1" ||
      name = "latin1" || name = "l1" then some latin1Codec
  else if name = "windows-1252" || name = "cp1252" then some cp1252Codec
  else if name = "cp949" || name = "uhc" || name = "ks_c_5601-1987" then some cp949Codec
  else if name = "euc-kr" || name = "euckr" || name = "euc_kr" then some euckrCodec
  else if name = "ascii" || name = "us-ascii" then some asciiCodec
  else none

/-! ## Encoding Normalizer: byte_decode (helper.py lines 354-380) -/

def isEncNameChar (c : Char) : Bool :=
  c == '-' || c == '_' || (('A' ≤ c && c ≤ 'Z') || ('a' ≤ c && c ≤ 'z') ||
    ('0' ≤ c && c ≤ '9'))

/-- Match the regex charset\s*=\s*[quote]?\s*([-A-Za-z0-9_]+) (re.I) at the
head of the character list; returns the captured group. -/
def matchCharsetAt (s : List Char) : Option (List Char) := do
  let rec dropCI : List Char → List Char → Option (List Char)
    | [], s => some s
    | p :: ps, c :: cs => if c.toLower = p then dropCI ps cs else none
    | _ :: _, [] => none
  let s1 ← dropCI "charset".data s
  let s2 := s1.dropWhile isPyWs
  match s2 with
  | '=' :: s3 =>
    let s4 := s3.dropWhile isPyWs
    let s5 := match s4 with
      | '\'' :: t => t
      | '"' :: t => t
      | _ => s4
    let s6 := s5.dropWhile isPyWs
    let run := s6.takeWhile isEncNameChar
    if run.isEmpty then none else some run
  | _ => none

def findCharsetDecl : List Char → Option String
  | [] => none
  | c :: rest =>
    match matchCharsetAt (c :: rest) with
    | some nm => some (strOfChars nm)
    | none => findCharsetDecl rest

/-- The charset-normalizer fallback from_bytes(data).best().output(): an
external library call.  `none` models best() returning None, in which case
the attribute access in the source raises. -/
def CharsetNormalizer : Type := List Nat → Option String

def defaultTrialEncs : List String := ["utf-8", "cp949", "euc-kr", "iso-8859-1", "windows-1252"]

/-- The trial loop of byte_decode: strict decode with each candidate in order.
`Except.error true` is an escaped LookupError (unknown codec name is not
caught by the loop), `Except.error false` means every candidate failed with
UnicodeDecodeError. -/
def tryTrialEncs (data : List Nat) : List String → Except Bool String
  | [] => .error false
  | e :: rest =>
    match lookupCodec e with
    | none => .error true
    | some c =>
      match c.strict data with
      | some s => .ok s
      | none => tryTrialEncs data rest

/-- helper.byte_decode.  `none` models an escaped exception. -/
def byte_decode (cn : CharsetNormalizer) (data : List Nat)
    (trial_encs : List String := defaultTrialEncs) : Option String :=
  let step1 : Option String :=
    let head := asciiIgnore (data.take 2048)
    match findCharsetDecl head with
    | some encName =>
      match lookupCodec (toLowerStr encName) with
      | some c => some (c.repl data)
      | none => none
    | none => none
  match step1 with
  | some s => some s
  | none =>
    match tryTrialEncs data trial_encs with
    | .ok s => some s
    | .error true => none
    | .error false => cn data

/-- The default trial loop always succeeds: iso-8859-1 is in the list and its
strict decoder is total, and every name before it resolves to a codec. -/
theorem tryTrialEncs_default_isOk (data : List Nat) :
    ∃ s, tryTrialEncs data defaultTrialEncs = .ok s := by
  have h1 : lookupCodec "utf-8" = some utf8Codec := rfl
  have h2 : lookupCodec "cp949" = some cp949Codec := rfl
  have h3 : lookupCodec "euc-kr" = some euckrCodec := rfl
  have h4 : lookupCodec "iso-8859-1" = some latin1Codec := rfl
  have p1 : utf8Codec.strict = utf8Strict := rfl
  have p2 : cp949Codec.strict = cp949Strict := rfl
  have p3 : euckrCodec.strict = euckrStrict := rfl
  have p4 : latin1Codec.strict = latin1Strict := rfl
  simp only [defaultTrialEncs, tryTrialEncs, h1, h2, h3, h4, p1, p2, p3, p4]
  cases h8 : utf8Strict data with
  | some s => simp only [h8]; exact ⟨s, rfl⟩
  | none =>
    cases h9 : cp949Strict data with
    | some s => simp only [h8, h9]; exact ⟨s, rfl⟩
    | none =>
      cases hk : euckrStrict data with
      | some s => simp only [h8, h9, hk]; exact ⟨s, rfl⟩
      | none => simp only [h8, h9, hk, latin1Strict]; exact ⟨_, rfl⟩

/-- C1: byte_decode with its default candidate list returns a string for
every non-empty byte sequence, whatever the charset-sniff finds and whatever
the statistical fallback would answer: the charset-sniff branch is exception
guarded, and the strict trial loop always terminates successfully at or
before iso-8859-1, whose decoder accepts every byte sequence. -/
theorem byte_decode_never_raises (cn : CharsetNormalizer) (data : List Nat)
    (h : data ≠ []) : (byte_decode cn data defaultTrialEncs).isSome := by
  clear h
  obtain ⟨s, hs⟩ := tryTrialEncs_default_isOk data
  unfold byte_decode
  cases hf : findCharsetDecl (asciiIgnore (data.take 2048)) with
  | some nm =>
    cases hl : lookupCodec (toLowerStr nm) with
    | some c => simp only [hf, hl, Option.isSome_some]
    | none => simp only [hf, hl, hs, Option.isSome_some]
  | none => simp only [hf, hs, Option.isSome_some]

/-- Witness for C1 at the concrete input [0xFF], which is invalid in UTF-8,
cp949 and euc-kr and is only absorbed by the Latin-1 trial. -/
theorem byte_decode_never_raises_witness :
    ([0xFF] : List Nat) ≠ [] ∧ (byte_decode (fun _ => none) [0xFF] defaultTrialEncs).isSome :=
  ⟨by decide, byte_decode_never_raises (fun _ => none) [0xFF] (by decide)⟩

/-! ## The archive-reader interface (pypff) as data

A message handle is modelled by the values its accessors can return.  An
`Option` field set to `none` stands for a missing attribute or an accessor
that raises (the source always guards these with hasattr or try). -/

/-- A Python value that may be either bytes or str. -/
inductive RawText where
  | bytes (data : List Nat)
  | str (s : String)
deriving DecidableEq

structure RecordEntry where
  entryType : Nat
  /-- entry.data_as_string; `none` when the attribute is missing or raises. -/
  dataAsString : Option String
  /-- entry.data; the empty list is falsy, matching absent data. -/
  data : List Nat
  /-- entry.value_type; `none` when the attribute is missing. -/
  valueType : Option Nat
deriving DecidableEq

structure RecordSet where
  entries : List RecordEntry
deriving DecidableEq

structure PyAttachEntry where
  entryType : Nat
  /-- ent.get_data(); `none` models a raising accessor. -/
  getData : Option (List Nat)
deriving DecidableEq

structure PyAttachment where
  /-- att.get_record_set(i).get_entry(j) enumeration. -/
  recordSets : List (List PyAttachEntry)
  /-- att.get_name(); `none` when the method is missing or raises. -/
  getName : Option String
  /-- att.get_size() followed by att.read_buffer(size); `none` models a read
  failure for this attachment. -/
  payload : Option (Int × List Nat)
deriving DecidableEq

/-- A Python datetime: civil components plus an optional fixed utcoffset in
seconds (`none` = naive). -/
structure PyDatetime where
  year : Int
  month : Int
  day : Int
  hour : Int
  minute : Int
  second : Int
  tz : Option Int
deriving DecidableEq

structure PyMessage where
  recordSets : List RecordSet
  transportHeaders : Option RawText
  subject : Option String
  senderName : Option String
  deliveryTime : Option PyDatetime
  plainTextBody : Option RawText
  htmlBody : Option RawText
  rtfBody : Option RawText
  /-- msg.message_class; `none` when missing, raising, or falsy. -/
  messageClassAttr : Option String
  /-- msg.get_message_class(); `none` when missing, raising, or falsy. -/
  getMessageClassMethod : Option String
  /-- msg.identifier; `none` when the attribute is missing. -/
  identifier : Option Int
  /-- msg.number_of_attachments; `none` models a raising accessor. -/
  numberOfAttachments : Option Int
  attachments : List PyAttachment
deriving DecidableEq

/-! ## Property Resolver: get_property_from_record_sets (helper.py 45-71) -/

/-- The value one matching record entry yields: data_as_string if the
accessor succeeds, else a decode of the raw bytes steered by the value-type
tag (31 = PT_UNICODE via UTF-16-LE, 30 = PT_STRING8 via CP1252, both with
replacement and NUL stripping); `none` lets the scan continue. -/
def entryValue (e : RecordEntry) : Option String :=
  match e.dataAsString with
  | some s => some s
  | none =>
    if e.data ≠ [] then
      match e.valueType with
      | some 31 => some (rstripNulls (utf16leReplace e.data))
      | some 30 => some (rstripNulls (cp1252Replace e.data))
      | _ => none
    else none

def firstPropValue (pid : Nat) : List RecordEntry → Option String
  | [] => none
  | e :: rest =>
    if e.entryType = pid then
      match entryValue e with
      | some v => some v
      | none => firstPropValue pid rest
    else firstPropValue pid rest

/-- helper.get_property_from_record_sets: scan all record sets in order and
return the first decodable value of the requested property, else the empty
string (the function never raises). -/
def get_property_from_record_sets (sets : List RecordSet) (pid : Nat) : String :=
  (firstPropValue pid (sets.flatMap RecordSet.entries)).getD ""

/-! ## Message Classifier: determine_message_kind (helper.py 74-87) -/

def PR_MESSAGE_FLAGS : Nat := 0x0E07
def MSGFLAG_FROMME : Nat := 0x00000040

/-- Python int(str): optional surrounding whitespace, optional sign, decimal
digits (underscore separators are not modelled; no input in scope uses
them). `none` is ValueError. -/
def pyIntParse (s : String) : Option Int :=
  let cs := pyStripChars s.data
  let signed : Bool × List Char :=
    match cs with
    | '+' :: t => (false, t)
    | '-' :: t => (true, t)
    | t => (false, t)
  let ds := signed.2
  if ds ≠ [] ∧ ds.all Char.isDigit then
    let n : Nat := ds.foldl (fun acc c => acc * 10 + (c.toNat - 48)) 0
    some (if signed.1 then -(n : Int) else (n : Int))
  else none

/-- Python (n &&& 0x40) as a truth value, with two-complement semantics for
negative ints. -/
def msgflagFromMe (n : Int) : Bool :=
  match n with
  | .ofNat m => m.testBit 6
  | .negSucc m => !(m.testBit 6)

def sentFolderNames : List String := ["sent items", "sent", "보낸 편지함", "outbox"]

/-- helper.determine_message_kind. -/
def determine_message_kind (msg : PyMessage) (folder_path : String) : String :=
  if sentFolderNames.contains (toLowerStr folder_path) then "sent"
  else
    let flags := get_property_from_record_sets msg.recordSets PR_MESSAGE_FLAGS
    let flagsInt : Option Int := if flags ≠ "" then pyIntParse flags else some 0
    match flagsInt with
    | some n => if msgflagFromMe n then "sent" else "receive"
    | none => "receive"

theorem dmk_sent_of_folder (msg : PyMessage) (fp : String)
    (h : sentFolderNames.contains (toLowerStr fp) = true) :
    determine_message_kind msg fp = "sent" := by
  unfold determine_message_kind
  rw [h]
  rfl

theorem dmk_else (msg : PyMessage) (fp : String)
    (h : sentFolderNames.contains (toLowerStr fp) = false) :
    determine_message_kind msg fp =
      match (if get_property_from_record_sets msg.recordSets PR_MESSAGE_FLAGS ≠ "" then
          pyIntParse (get_property_from_record_sets msg.recordSets PR_MESSAGE_FLAGS)
        else some 0) with
      | some n => if msgflagFromMe n then "sent" else "receive"
      | none => "receive" := by
  unfold determine_message_kind
  rw [h]
  rfl

/-- C4: the classifier returns exactly one of sent/receive; a folder-name
match decides sent regardless of flags; otherwise a parsed flags value with
the from-me bit decides sent; otherwise the result is receive (including a
present but unparsable flags string, whose ValueError is swallowed). -/
theorem determine_message_kind_spec (msg : PyMessage) (fp : String) :
    (determine_message_kind msg fp = "sent" ∨ determine_message_kind msg fp = "receive") ∧
    (sentFolderNames.contains (toLowerStr fp) = true →
      determine_message_kind msg fp = "sent") ∧
    (sentFolderNames.contains (toLowerStr fp) = false →
      ∀ n : Int,
        pyIntParse (get_property_from_record_sets msg.recordSets PR_MESSAGE_FLAGS) = some n →
        (msgflagFromMe n = true → determine_message_kind msg fp = "sent") ∧
        (msgflagFromMe n = false → determine_message_kind msg fp = "receive")) ∧
    (sentFolderNames.contains (toLowerStr fp) = false →
      pyIntParse (get_property_from_record_sets msg.recordSets PR_MESSAGE_FLAGS) = none →
      determine_message_kind msg fp = "receive") := by
  have hempty : pyIntParse "" = none := by decide
  refine ⟨?_, dmk_sent_of_folder msg fp, ?_, ?_⟩
  · by_cases h : sentFolderNames.contains (toLowerStr fp) = true
    · exact Or.inl (dmk_sent_of_folder msg fp h)
    · rw [Bool.not_eq_true] at h
      rw [dmk_else msg fp h]
      cases hp : (if get_property_from_record_sets msg.recordSets PR_MESSAGE_FLAGS ≠ "" then
          pyIntParse (get_property_from_record_sets msg.recordSets PR_MESSAGE_FLAGS)
        else some 0) with
      | none => exact Or.inr rfl
      | some n =>
        cases hb : msgflagFromMe n
        · exact Or.inr (by simp [hb])
        · exact Or.inl (by simp [hb])
  · intro h n hp
    rw [dmk_else msg fp h]
    have hne : get_property_from_record_sets msg.recordSets PR_MESSAGE_FLAGS ≠ "" := by
      intro he
      rw [he, hempty] at hp
      cases hp
    rw [if_pos hne, hp]
    constructor <;> intro hb <;> simp [hb]
  · intro h hp
    rw [dmk_else msg fp h]
    by_cases hne : get_property_from_record_sets msg.recordSets PR_MESSAGE_FLAGS = ""
    · rw [if_neg (by simp [hne])]
      have h0 : msgflagFromMe 0 = false := by decide
      simp [h0]
    · rw [if_pos hne, hp]

/-- A concrete Inbox message whose PR_MESSAGE_FLAGS property is the string
64 (MSGFLAG_FROMME set). -/
def msgInboxFromMe : PyMessage :=
  { recordSets := [⟨[⟨0x0E07, some "64", [], none⟩]⟩]
    transportHeaders := none
    subject := none
    senderName := none
    deliveryTime := none
    plainTextBody := none
    htmlBody := none
    rtfBody := none
    messageClassAttr := none
    getMessageClassMethod := none
    identifier := none
    numberOfAttachments := some 0
    attachments := [] }

/-- Witness for C4: an Inbox folder path with the from-me flag bit set still
classifies as sent. -/
theorem determine_message_kind_spec_witness :
    sentFolderNames.contains (toLowerStr "Inbox") = false ∧
    pyIntParse (get_property_from_record_sets msgInboxFromMe.recordSets PR_MESSAGE_FLAGS) =
      some 64 ∧
    msgflagFromMe 64 = true ∧
    determine_message_kind msgInboxFromMe "Inbox" = "sent" :=
  ⟨by decide, by decide, by decide,
    ((determine_message_kind_spec msgInboxFromMe "Inbox").2.2.1 (by decide) 64
      (by decide)).1 (by decide)⟩


/-! ## Address Resolver (helper.py 139-281)

The Python regexes are embedded as dedicated deterministic matchers with the
same leftmost-match search semantics on the inputs the source feeds them. -/

/-- Case-insensitive literal prefix match (the pattern is given lower-case);
returns the remainder on success. -/
def dropCIPrefix : List Char → List Char → Option (List Char)
  | [], s => some s
  | p :: ps, c :: cs => if c.toLower = p then dropCIPrefix ps cs else none
  | _ :: _, [] => none

/-- Substring test used for the Python `in` operator on str. -/
def containsSub (needle : List Char) : List Char → Bool
  | [] => (dropCIPrefix [] []).isSome && needle.isEmpty || needle.isEmpty
  | c :: rest =>
    if needle.isPrefixOf (c :: rest) then true else containsSub needle rest

def strContains (hay needle : String) : Bool :=
  needle.data.isEmpty || containsSub needle.data hay.data

def containsChar (c : Char) (s : String) : Bool := s.data.contains c

/-- Search for KEY=([^/]+) case-insensitively (KEY given lower-case,
including the equals sign): regex `CN=([^/]+)(?:/|$)` and `OU=([^/]+)`.
The greedy run up to the next slash always satisfies the trailing
alternative, so the group is exactly that run. -/
def searchKeyGroup (key : List Char) : List Char → Option (List Char)
  | [] => none
  | c :: rest =>
    match dropCIPrefix key (c :: rest) with
    | some after =>
      let run := after.takeWhile (· ≠ '/')
      if run.isEmpty then searchKeyGroup key rest else some run
    | none => searchKeyGroup key rest

def isHexChar (c : Char) : Bool :=
  c.isDigit || ('A' ≤ c && c ≤ 'F') || ('a' ≤ c && c ≤ 'f')

/-- Consume exactly `n` hex digits. -/
def takeHexN : Nat → List Char → Option (List Char)
  | 0, s => some s
  | _ + 1, [] => none
  | n + 1, c :: cs => if isHexChar c then takeHexN n cs else none

def expectChar (c : Char) : List Char → Option (List Char)
  | [] => none
  | d :: rest => if d = c then some rest else none

/-- re.match of ^[0-9A-F]{8}-[0-9A-F]{4}-[0-9A-F]{4}-[0-9A-F]{4}-[0-9A-F]{12}
(re.I): an anchored prefix test. -/
def guidPrefixMatch (cs : List Char) : Bool :=
  (do
    let r1 ← takeHexN 8 cs
    let r2 ← expectChar '-' r1
    let r3 ← takeHexN 4 r2
    let r4 ← expectChar '-' r3
    let r5 ← takeHexN 4 r4
    let r6 ← expectChar '-' r5
    let r7 ← takeHexN 4 r6
    let r8 ← expectChar '-' r7
    takeHexN 12 r8).isSome

def isLocalChar (c : Char) : Bool :=
  c.isAlpha || c.isDigit || c == '.' || c == '_' || c == '%' || c == '+' || c == '-'

def isDomChar (c : Char) : Bool :=
  c.isAlpha || c.isDigit || c == '.' || c == '-'

def isAsciiAlpha (c : Char) : Bool := c.isAlpha

/-- Backtracking step of the email regex domain: the greedy domain run `dom`
is split at the last dot that is followed by at least two letters; the
top-level-domain part is the maximal letter run after that dot. -/
def emailDomainSplit (dom : List Char) : Option (List Char × List Char) :=
  ((List.range dom.length).reverse.find? (fun j =>
      dom.get? j = some '.' &&
      ((dom.drop (j + 1)).takeWhile isAsciiAlpha).length ≥ 2)).map
    (fun j => (dom.take j, (dom.drop (j + 1)).takeWhile isAsciiAlpha))

/-- Attempt the regex [a-zA-Z0-9._%+-]+@[a-zA-Z0-9.-]+\.[a-zA-Z]{2,}
anchored at the head of `s`; returns the matched text.  The local part is the
maximal run (its class excludes the at sign, so no backtracking can help). -/
def matchEmailAt (s : List Char) : Option (List Char) :=
  let loc := s.takeWhile isLocalChar
  if loc.isEmpty then none
  else
    match s.drop loc.length with
    | '@' :: rest =>
      let dom := rest.takeWhile isDomChar
      match emailDomainSplit dom with
      | some (pre, tld) => some (loc ++ '@' :: (pre ++ '.' :: tld))
      | none => none
    | _ => none

/-- re.search of the email pattern: leftmost match. -/
def searchEmail : List Char → Option (List Char)
  | [] => none
  | c :: rest =>
    match matchEmailAt (c :: rest) with
    | some m => some m
    | none => searchEmail rest

/-- The lazy segment of `KEY:.*?EMAIL`: the dot does not cross a newline, so
try the email pattern at each position of the current line. -/
def searchEmailInLine : List Char → Option (List Char)
  | [] => none
  | c :: rest =>
    if c = '\n' then none
    else
      match matchEmailAt (c :: rest) with
      | some m => some m
      | none => searchEmailInLine rest

/-- re.search of `KEY.*?(EMAIL)` with re.I (KEY given lower-case): find the
leftmost KEY occurrence that still has an email match on the same line. -/
def searchHeaderEmail (key : List Char) : List Char → Option (List Char)
  | [] => none
  | c :: rest =>
    match dropCIPrefix key (c :: rest) with
    | some after =>
      match searchEmailInLine after with
      | some m => some m
      | none => searchHeaderEmail key rest
    | none => searchHeaderEmail key rest

/-- helper.extract_domain_from_dn. -/
def extract_domain_from_dn (dn : String) : String :=
  match searchKeyGroup "ou=".data dn.data with
  | some ou =>
    if strContains (toLowerStr (strOfChars ou)) "exchange" then "outlook.com" else ""
  | none => ""

/-- helper.clean_exchange_dn. -/
def clean_exchange_dn (dn : String) : String :=
  let cnRes : Option String :=
    match searchKeyGroup "cn=".data dn.data with
    | some cn =>
      if !guidPrefixMatch cn then some (strOfChars cn)
      else
        let pre := cn.takeWhile (· ≠ '-')
        if pre.isEmpty then none else some ("User_" ++ strOfChars (pre.take 8))
    | none => none
  match cnRes with
  | some r => r
  | none =>
    match searchKeyGroup "ou=".data dn.data with
    | some ou => "Exchange_" ++ strOfChars ou
    | none => dn

def PR_SENDER_EMAIL_ADDRESS : Nat := 0x0C1F
def PR_FROM_EMAIL_ADDRESS : Nat := 0x0051

def possibleProps : List Nat := [0x0C1F, 0x0C1E, 0x5D01, 0x0076, 0x0065, 0x3003, 0x39FE]

def additionalProps : List Nat := [0x3001, 0x3002, 0x0E08, 0x007D]

/-- Step 2 of resolve_sender_address: the From:/Reply-To: regex scan over the
transport headers.  A bytes-typed header raises TypeError inside the guarded
block, which the bare except swallows, and a falsy header is skipped. -/
def headerEmailLookup (msg : PyMessage) : Option String :=
  match msg.transportHeaders with
  | some (.str s) =>
    if s ≠ "" then
      match searchHeaderEmail "from:".data s.data with
      | some a => some (strOfChars a)
      | none => (searchHeaderEmail "reply-to:".data s.data).map strOfChars
    else none
  | _ => none

/-- Step 3 of resolve_sender_address: CN token plus best-guess domain. -/
def cnDomainLookup (dn : String) : Option String :=
  match searchKeyGroup "cn=".data dn.data with
  | some cn =>
    if !guidPrefixMatch cn then
      let domain := extract_domain_from_dn dn
      if domain ≠ "" then some (strOfChars cn ++ "@" ++ domain)
      else some (strOfChars cn)
    else none
  | none => none

/-- helper.resolve_sender_address: the five-step fallback chain. -/
def resolve_sender_address (msg : PyMessage) (original_dn : String) : String :=
  match possibleProps.findSome? (fun pid =>
      let e := get_property_from_record_sets msg.recordSets pid
      if e ≠ "" ∧ containsChar '@' e then some e else none) with
  | some e => e
  | none =>
    match headerEmailLookup msg with
    | some a => a
    | none =>
      match cnDomainLookup original_dn with
      | some a => a
      | none =>
        match additionalProps.findSome? (fun pid =>
            let v := get_property_from_record_sets msg.recordSets pid
            if v ≠ "" ∧ containsChar '@' v then (searchEmail v.data).map strOfChars
            else none) with
        | some a => a
        | none => clean_exchange_dn original_dn

/-- helper.get_sender_from_address: returns (sender_address, from_address).
Note that the from-side fallback when the from property is absent is the raw
sender property value, not the resolved sender address. -/
def get_sender_from_address (msg : PyMessage) : String × String :=
  let sender_email := get_property_from_record_sets msg.recordSets PR_SENDER_EMAIL_ADDRESS
  let from_email := get_property_from_record_sets msg.recordSets PR_FROM_EMAIL_ADDRESS
  let sender_address :=
    if sender_email ≠ "" then
      if containsChar '@' sender_email then sender_email
      else resolve_sender_address msg sender_email
    else ""
  let from_address :=
    if from_email ≠ "" then
      if containsChar '@' from_email then from_email
      else resolve_sender_address msg from_email
    else sender_email
  (sender_address, from_address)

/-- A message whose sender property is a bare legacy directory identifier and
whose from property is absent. -/
def msgLegacySender : PyMessage :=
  { recordSets := [⟨[⟨0x0C1F, some "CN=jdoe", [], none⟩]⟩]
    transportHeaders := none
    subject := none
    senderName := none
    deliveryTime := none
    plainTextBody := none
    htmlBody := none
    rtfBody := none
    messageClassAttr := none
    getMessageClassMethod := none
    identifier := none
    numberOfAttachments := some 0
    attachments := [] }

/-- C5 counterexample: with the from property absent and the sender property
a legacy directory identifier, from_address is the raw identifier while
sender_address is its resolved form, so the two differ. -/
theorem get_sender_from_address_fallback_counterexample :
    get_property_from_record_sets msgLegacySender.recordSets PR_FROM_EMAIL_ADDRESS = "" ∧
    get_sender_from_address msgLegacySender = ("jdoe", "CN=jdoe") ∧
    (get_sender_from_address msgLegacySender).2 ≠ (get_sender_from_address msgLegacySender).1 := by
  refine ⟨by decide, by decide, by decide⟩

/-- C5 amended: when the from-email property is absent, from_address equals
the raw sender-email property value (which coincides with sender_address only
when that value contains an at sign or is empty). -/
theorem get_sender_from_address_fallback (msg : PyMessage)
    (h : get_property_from_record_sets msg.recordSets PR_FROM_EMAIL_ADDRESS = "") :
    (get_sender_from_address msg).2 =
      get_property_from_record_sets msg.recordSets PR_SENDER_EMAIL_ADDRESS := by
  unfold get_sender_from_address
  simp [h]

/-- Witness for the amended C5 at the concrete legacy-sender message. -/
theorem get_sender_from_address_fallback_witness :
    get_property_from_record_sets msgLegacySender.recordSets PR_FROM_EMAIL_ADDRESS = "" ∧
    (get_sender_from_address msgLegacySender).2 =
      get_property_from_record_sets msgLegacySender.recordSets PR_SENDER_EMAIL_ADDRESS :=
  ⟨by decide, get_sender_from_address_fallback msgLegacySender (by decide)⟩

/-! ## Header Parser: recipients_from_headers (helper.py 382-423)

The standard-library chain email.message_from_string / get_all /
email.utils.getaddresses and email.header.decode_header are external
collaborators; they are modelled as components of a `PyEmailLib` value the
theorems quantify over.  `none` models a raised exception. -/

structure HeaderAddressLists where
  toPairs : List (String × String)
  ccPairs : List (String × String)
  bccPairs : List (String × String)

structure PyEmailLib where
  /-- message_from_string + get_all(To)/get_all(Cc)/get_all(Bcc) +
  getaddresses, bundled: all (name, address) pairs per header name. -/
  parse : String → Option HeaderAddressLists
  /-- email.header.decode_header followed by the fragment join. -/
  decodeHeader : String → Option String

/-- The bytes branch at the top of recipients_from_headers: strict UTF-8,
degrading to a replacing Latin-1 decode on UnicodeDecodeError. -/
def decodeRawHeaders : RawText → String
  | .bytes b =>
    match utf8Strict b with
    | some t => t
    | none => latin1Replace b
  | .str s => s

/-- helper._decode_name: RFC 2047 decoding with fall-back to the raw text on
any exception. -/
def decode_name (lib : PyEmailLib) (raw : String) : String :=
  (lib.decodeHeader raw).getD raw

/-- Lexicographic code-point comparison, as Python compares str values. -/
def lexLt : List Char → List Char → Bool
  | [], [] => false
  | [], _ :: _ => true
  | _ :: _, [] => false
  | a :: as, b :: bs => if a < b then true else if b < a then false else lexLt as bs

def strLeB (a b : String) : Bool := lexLt a.data b.data || a == b

def insertSorted (x : String) : List String → List String
  | [] => [x]
  | y :: ys => if strLeB x y then x :: y :: ys else y :: insertSorted x ys

def sortStrings (l : List String) : List String := l.foldr insertSorted []

/-- The local fmt closure: format each pair as NAME <ADDR> (bare address when
the decoded, stripped name is empty), deduplicate, sort, join with a
semicolon separator — Python "; ".join(sorted(set(out))). -/
def fmtRecipients (lib : PyEmailLib) (pairs : List (String × String)) : String :=
  let out := pairs.map (fun p =>
    let name := pyStrip (decode_name lib p.1)
    if name ≠ "" then name ++ " <" ++ p.2 ++ ">" else p.2)
  String.intercalate "; " (sortStrings out.eraseDups)

/-- helper.recipients_from_headers. -/
def recipients_from_headers (lib : PyEmailLib) (raw_headers : RawText) : String × String :=
  let s := decodeRawHeaders raw_headers
  match lib.parse s with
  | some h => (fmtRecipients lib h.toPairs, fmtRecipients lib h.ccPairs)
  | none => (fmtRecipients lib [], fmtRecipients lib [])

/-- C8: for every raw header input (bytes or text) and every outcome of the
external header parser, the result is the pair of formatted / deduplicated /
sorted / semicolon-joined To and Cc lists; a parser exception degrades to two
empty strings; and the output never depends on the Bcc list (two libraries
agreeing on To/Cc pairs and on name decoding give identical output whatever
their Bcc lists are). -/
theorem recipients_from_headers_spec (lib : PyEmailLib) (raw : RawText) :
    (∀ h, lib.parse (decodeRawHeaders raw) = some h →
      recipients_from_headers lib raw = (fmtRecipients lib h.toPairs, fmtRecipients lib h.ccPairs)) ∧
    (lib.parse (decodeRawHeaders raw) = none →
      recipients_from_headers lib raw = ("", "")) ∧
    (∀ lib2 : PyEmailLib, lib2.decodeHeader = lib.decodeHeader →
      (∀ s, (lib2.parse s).map (fun h => (h.toPairs, h.ccPairs)) =
        (lib.parse s).map (fun h => (h.toPairs, h.ccPairs))) →
      recipients_from_headers lib2 raw = recipients_from_headers lib raw) := by
  refine ⟨?_, ?_, ?_⟩
  · intro h hp
    simp only [recipients_from_headers]
    rw [hp]
  · intro hp
    simp only [recipients_from_headers]
    rw [hp]
    rfl
  · intro lib2 hdec hparse
    simp only [recipients_from_headers]
    have h2 := hparse (decodeRawHeaders raw)
    have hfmt : ∀ pairs, fmtRecipients lib2 pairs = fmtRecipients lib pairs := by
      intro pairs
      unfold fmtRecipients decode_name
      rw [hdec]
    cases hl : lib.parse (decodeRawHeaders raw) with
    | some h =>
      rw [hl] at h2
      cases hl2 : lib2.parse (decodeRawHeaders raw) with
      | some g =>
        rw [hl2] at h2
        simp only [Option.map_some'] at h2
        have hto : g.toPairs = h.toPairs := congrArg Prod.fst (Option.some.inj h2)
        have hcc : g.ccPairs = h.ccPairs := congrArg Prod.snd (Option.some.inj h2)
        simp only [hto, hcc, hfmt]
      | none => rw [hl2] at h2; cases h2
    | none =>
      rw [hl] at h2
      cases hl2 : lib2.parse (decodeRawHeaders raw) with
      | some g => rw [hl2] at h2; cases h2
      | none => simp only [hfmt]

/-- A concrete parser outcome for the witness: one To entry, a duplicated Cc
entry, and a Bcc entry that must not leak. -/
def headerListsW : HeaderAddressLists :=
  { toPairs := [("Bob", "bob@x.com")]
    ccPairs := [("Carol", "carol@x.com"), ("Bob", "bob@x.com"), ("Bob", "bob@x.com")]
    bccPairs := [("Eve", "eve@x.com")] }

def pyEmailLibW : PyEmailLib :=
  { parse := fun _ => some headerListsW
    decodeHeader := fun s => some s }

def rawHeadersW : RawText :=
  .str "To: Bob <bob@x.com>
Cc: Carol <carol@x.com>, Bob <bob@x.com>, Bob <bob@x.com>
Bcc: Eve <eve@x.com>
"

/-- Witness for C8: the Cc duplicates collapse, the lists come out sorted,
and the Bcc entry appears nowhere. -/
theorem recipients_from_headers_spec_witness :
    pyEmailLibW.parse (decodeRawHeaders rawHeadersW) = some headerListsW ∧
    recipients_from_headers pyEmailLibW rawHeadersW =
      ("Bob <bob@x.com>", "Bob <bob@x.com>; Carol <carol@x.com>") := by
  refine ⟨rfl, ?_⟩
  have h := (recipients_from_headers_spec pyEmailLibW rawHeadersW).1 headerListsW rfl
  rw [h]
  decide

/-! ## Attachment Materializer (helper.py 495-831) -/

/-- helper.decode_mapi_string on bytes: UTF-16-LE, then UTF-8, then a forced
Latin-1 decode, each stripping trailing NULs. -/
def decode_mapi_string (raw : List Nat) : String :=
  match utf16leStrict raw with
  | some s => rstripNulls s
  | none =>
    match utf8Strict raw with
    | some s => rstripNulls s
    | none => rstripNulls (latin1Replace raw)

/-- The recurring guard `if result and not result.startswith(underscores)`. -/
def passSentinelFilter (s : String) : Bool := s ≠ "" && !(strStartsWith s "___")

/-- helper.decode_mapi_string_enhanced.  Note that the truncation of trailing
NUL bytes performed inside methods 2 and 3 mutates the local variable, so the
truncated buffer is what methods 3-5 see; the model threads raw2/raw3
accordingly. -/
def decode_mapi_string_enhanced (raw : List Nat) (entryType : Nat) : Option String :=
  let _ := entryType
  if raw.isEmpty then none
  else
    let m1 := decode_mapi_string raw
    if passSentinelFilter m1 then some m1
    else
      let raw2 := if raw.length ≥ 2 ∧ raw.drop (raw.length - 2) = [0, 0] then
          raw.take (raw.length - 2) else raw
      let try2 : Option String :=
        match (utf16leStrict raw2).map pyStrip with
        | some s => if passSentinelFilter s then some s else none
        | none => none
      match try2 with
      | some s => some s
      | none =>
        let raw3 := if raw2 ≠ [] ∧ raw2.getLast? = some 0 then raw2.dropLast else raw2
        let try3 : Option String :=
          match (utf8Strict raw3).map pyStrip with
          | some s => if passSentinelFilter s then some s else none
          | none => none
        match try3 with
        | some s => some s
        | none =>
          let try4 : Option String :=
            match (cp949Strict raw3).map pyStrip with
            | some s => if passSentinelFilter s then some s else none
            | none => none
          match try4 with
          | some s => some s
          | none =>
            let s5 := pyStrip (latin1Replace raw3)
            if passSentinelFilter s5 then some s5 else none

def attachNameWanted : List Nat := [0x3707, 0x3704, 0x3001, 0x3703]

def findAttachNameInEntries : List PyAttachEntry → Option String
  | [] => none
  | e :: rest =>
    if attachNameWanted.contains e.entryType then
      match e.getData with
      | some raw =>
        match decode_mapi_string_enhanced raw e.entryType with
        | some d => some d
        | none => findAttachNameInEntries rest
      | none => findAttachNameInEntries rest
    else findAttachNameInEntries rest

/-- helper.find_attach_name (the second, shadowing definition is the live
one): scan the record sets for the four filename properties in entry order;
per-entry failures are swallowed and the scan continues. -/
def find_attach_name (att : PyAttachment) : Option String :=
  findAttachNameInEntries (att.recordSets.flatMap id)

/-- The character class of INVALID (helper.py 495), control bytes included. -/
def isInvalidFileChar (c : Char) : Bool :=
  c == '<' || c == '>' || c == ':' || c == '"' || c == '/' || c == '\\' ||
  c == '|' || c == '?' || c == '*' || c.toNat ≤ 0x1F

/-- The substitution / strip part of helper.safe_name. -/
def sanitizeCore (name : String) : String :=
  pyRstripSet ['.', ' ']
    (pyStrip (strOfChars (name.data.map (fun c => if isInvalidFileChar c then '_' else c))))

/-- helper.safe_name; `fresh` stands for uuid4().hex[:8], consumed only when
the sanitized name is empty. -/
def safe_name (fresh : String) (name : String) : String :=
  let n := sanitizeCore name
  if n ≠ "" then n else "file_" ++ fresh

def imageExts : List String := ["png", "jpg", "jpeg", "gif", "bmp", "tiff", "wmf", "emf"]

/-- The anchored inline-image regex image\d{3}\.(png|jpg|jpeg|gif|bmp|tiff|wmf|emf)
with re.I: case-insensitive literal, exactly three ASCII digits, a dot, and
one of the listed extensions ending the string. -/
def isAutoInlineImage (name : String) : Bool :=
  match dropCIPrefix "image".data name.data with
  | some (d1 :: d2 :: d3 :: '.' :: rest) =>
    d1.isDigit && d2.isDigit && d3.isDigit &&
      imageExts.contains (strOfChars (rest.map Char.toLower))
  | _ => false

def pad6 (n : Nat) : String :=
  let s := toString n
  strOfChars (List.replicate (6 - s.length) '0') ++ s

/-- helper.make_physical_file_name; `micros` is the microsecond component of
the datetime.now() call. -/
def make_physical_file_name (prefixPart : String) (micros : Nat) (ext : String) : String :=
  prefixPart ++ "_" ++ pad6 micros ++ ext

/-- pathlib suffix of a path component: from the last dot, unless that dot is
first or last. -/
def pathSuffix (name : String) : String :=
  let cs := name.data
  match ((List.range cs.length).reverse.find? (fun i => cs.get? i = some '.')) with
  | some i => if 0 < i ∧ i < cs.length - 1 then strOfChars (cs.drop i) else ""
  | none => ""

def pathStem (name : String) : String :=
  strOfChars (name.data.take (name.data.length - (pathSuffix name).data.length))

/-- helper.extract_path on normalized string paths. -/
def extract_path (path base : String) : String :=
  if path = base then "."
  else
    let bp := (base ++ "/").data
    if bp.isPrefixOf path.data then strOfChars (path.data.drop bp.length) else path

/-- Oracles for the ambient effects of extraction: the clock microseconds and
uuid hex draws, indexed by call counters, plus the configured attachment base
directory. -/
structure ExtractCtx where
  micros : Nat → Nat
  fresh : Nat → String
  attachBaseDir : String

/-- Filesystem-and-counters state threaded through the extraction. -/
structure FsState where
  files : List String
  clock : Nat
  uuidCtr : Nat
deriving DecidableEq

def mkPath (dir stem suffix : String) : String := dir ++ "/" ++ stem ++ suffix

/-- The while-exists collision loop: append _1, _2, ... to the stem until the
path is free.  The fuel is sized below so that the loop always exits with a
fresh path. -/
def resolveLoop (files : List String) (dir suffix : String) :
    Nat → String → Nat → String
  | 0, stem, _ => mkPath dir stem suffix
  | fuel + 1, stem, dup =>
    let p := mkPath dir stem suffix
    if files.contains p then
      resolveLoop files dir suffix fuel (stem ++ "_" ++ toString dup) (dup + 1)
    else p

def resolveFreePath (files : List String) (dir stem suffix : String) : String :=
  resolveLoop files dir suffix (files.length + 1) stem 1

theorem length_filter_lt_of_mem_not {α} (l : List α) (p : α → Bool) (a : α)
    (ha : a ∈ l) (hp : p a = false) : (l.filter p).length < l.length := by
  induction l with
  | nil => cases ha
  | cons x xs ih =>
    cases List.mem_cons.mp ha with
    | inl h =>
      subst h
      have := List.length_filter_le p xs
      simp [List.filter_cons, hp]
      omega
    | inr h =>
      cases hx : p x
      · have := List.length_filter_le p xs
        simp [List.filter_cons, hx]
        omega
      · have := ih h
        simp [List.filter_cons, hx]
        omega

theorem resolveLoop_free (files : List String) (dir suffix : String) :
    ∀ (fuel : Nat) (stem : String) (dup : Nat),
      (files.filter (fun q => decide ((mkPath dir stem suffix).length ≤ q.length))).length < fuel →
      (resolveLoop files dir suffix fuel stem dup) ∉ files := by
  intro fuel
  induction fuel with
  | zero => intro stem dup h; omega
  | succ n ih =>
    intro stem dup h
    unfold resolveLoop
    by_cases hc : mkPath dir stem suffix ∈ files
    · rw [if_pos (by simpa using hc)]
      apply ih
      have hlen : (mkPath dir stem suffix).length <
          (mkPath dir (stem ++ "_" ++ toString dup) suffix).length := by
        have h1 : ("_" : String).length = 1 := rfl
        simp only [mkPath, String.length_append, h1]
        omega
      set L := (mkPath dir stem suffix).length with hL
      set L2 := (mkPath dir (stem ++ "_" ++ toString dup) suffix).length with hL2
      have hsub : files.filter (fun q => decide (L2 ≤ q.length)) =
          (files.filter (fun q => decide (L ≤ q.length))).filter
            (fun q => decide (L2 ≤ q.length)) := by
        rw [List.filter_filter]
        apply List.filter_congr
        intro x _
        cases hq : decide (L2 ≤ x.length)
        · simp
        · have : L2 ≤ x.length := of_decide_eq_true hq
          have : L ≤ x.length := by omega
          simp [of_decide_eq_true hq, this]
      have hmem2 : mkPath dir stem suffix ∈
          files.filter (fun q => decide (L ≤ q.length)) := by
        apply List.mem_filter.mpr
        exact ⟨hc, by simp⟩
      have hnot2 : (fun (q : String) => decide (L2 ≤ q.length)) (mkPath dir stem suffix) = false := by
        simp
        omega
      have hlt := length_filter_lt_of_mem_not
        (files.filter (fun q => decide (L ≤ q.length)))
        (fun q => decide (L2 ≤ q.length)) (mkPath dir stem suffix) hmem2 hnot2
      rw [hsub]
      have hle : (files.filter (fun q => decide (L ≤ q.length))).length ≤ n := by omega
      omega
    · rw [if_neg (by simpa using hc)]
      exact hc

/-- The fuel of resolveFreePath always suffices: the resolved path is not yet
on disk. -/
theorem resolveFreePath_not_mem (files : List String) (dir stem suffix : String) :
    resolveFreePath files dir stem suffix ∉ files := by
  apply resolveLoop_free
  have := List.length_filter_le (fun q => decide ((mkPath dir stem suffix).length ≤ q.length)) files
  omega

structure AttachRecord where
  email_id : String
  org_file_name : String
  phy_file_name : String
  save_folder : String
  file_size : Int
deriving DecidableEq

/-- Steps (1) of extract_attachments: find_attach_name with the get_name
fallback for missing or sentinel-prefixed results. -/
def attachRawName (att : PyAttachment) : Option String :=
  match find_attach_name att with
  | some n =>
    if strStartsWith n "___" then
      match att.getName with
      | some alt => if alt ≠ "" ∧ ¬ strStartsWith alt "___" = true then some alt else some n
      | none => some n
    else some n
  | none =>
    match att.getName with
    | some alt => if alt ≠ "" ∧ ¬ strStartsWith alt "___" = true then some alt else none
    | none => none

/-- The final name of attachment `i`: safe_name of the raw name, or the
attach_i placeholder; consumes a uuid draw only in the empty-sanitization
branch. -/
def attachName (ctx : ExtractCtx) (st : FsState) (att : PyAttachment) (i : Nat) :
    String × FsState :=
  match attachRawName att with
  | some rn =>
    let n0 := sanitizeCore rn
    if n0 ≠ "" then (n0, st)
    else ("file_" ++ ctx.fresh st.uuidCtr, { st with uuidCtr := st.uuidCtr + 1 })
  | none => ("attach_" ++ toString i, st)

/-- One iteration of the extract_attachments loop: returns the new state, the
record appended (if any) and the path written (if any). -/
def processAttachment (ctx : ExtractCtx) (emailId baseDir : String)
    (st : FsState) (att : PyAttachment) (i : Nat) :
    FsState × Option AttachRecord × Option String :=
  let nameSt := attachName ctx st att i
  let name := nameSt.1
  let st1 := nameSt.2
  if isAutoInlineImage name then (st1, none, none)
  else
    match att.payload with
    | none => (st1, none, none)
    | some (size, _data) =>
      let ext := pathSuffix name
      let phys := make_physical_file_name emailId (ctx.micros st1.clock) ext
      let savePath := resolveFreePath st1.files baseDir (pathStem phys) (pathSuffix phys)
      let st3 : FsState :=
        { files := savePath :: st1.files, clock := st1.clock + 1, uuidCtr := st1.uuidCtr }
      let saveFolder := extract_path baseDir ctx.attachBaseDir
      (st3, some ⟨emailId, name, phys, saveFolder, size⟩, some savePath)

/-- The extract_attachments loop from index `i`, `n` iterations remaining;
`Except.error` models the uncaught exception when msg.get_attachment(i)
fails, carrying the filesystem state (files written so far stay on disk). -/
def extractAttachLoop (ctx : ExtractCtx) (msg : PyMessage) (baseDir emailId : String) :
    Nat → Nat → FsState → Except FsState (FsState × List AttachRecord × List String)
  | _, 0, st => .ok (st, [], [])
  | i, n + 1, st =>
    match msg.attachments.get? i with
    | none => .error st
    | some att =>
      let stepOut := processAttachment ctx emailId baseDir st att i
      match extractAttachLoop ctx msg baseDir emailId (i + 1) n stepOut.1 with
      | .error st2 => .error st2
      | .ok (st2, recs, ws) =>
        .ok (st2, stepOut.2.1.toList ++ recs, stepOut.2.2.toList ++ ws)

/-- helper.extract_attachments, instrumented to also return the list of paths
written during the call. -/
def extract_attachments (ctx : ExtractCtx) (msg : PyMessage) (base_dir email_id : String)
    (attach_count : Nat) (st : FsState) :
    Except FsState (FsState × List AttachRecord × List String) :=
  extractAttachLoop ctx msg base_dir email_id 0 attach_count st

theorem processAttachment_facts (ctx : ExtractCtx) (emailId baseDir : String)
    (st : FsState) (att : PyAttachment) (i : Nat) :
    (match (processAttachment ctx emailId baseDir st att i).2.2 with
     | some p =>
        p ∉ st.files ∧
        (processAttachment ctx emailId baseDir st att i).1.files = p :: st.files ∧
        (processAttachment ctx emailId baseDir st att i).2.1.isSome
     | none =>
        (processAttachment ctx emailId baseDir st att i).1.files = st.files ∧
        (processAttachment ctx emailId baseDir st att i).2.1 = none) := by
  have hfiles : (attachName ctx st att i).2.files = st.files := by
    unfold attachName
    rcases h : attachRawName att with _ | rn
    · simp
    · by_cases h0 : sanitizeCore rn = ""
      · simp [h0]
      · simp [h0]
  by_cases hin : isAutoInlineImage (attachName ctx st att i).1
  · simp [processAttachment, hin, hfiles]
  · rcases hp : att.payload with _ | ⟨size, data⟩
    · simp [processAttachment, hin, hp, hfiles]
    · simp only [processAttachment, hin, hp, Bool.false_eq_true, if_false]
      refine ⟨?_, ?_, rfl⟩
      · rw [hfiles]
        exact resolveFreePath_not_mem _ _ _ _
      · simp [hfiles]

theorem processAttachment_record_org (ctx : ExtractCtx) (emailId baseDir : String)
    (st : FsState) (att : PyAttachment) (i : Nat) (r : AttachRecord)
    (hr : (processAttachment ctx emailId baseDir st att i).2.1 = some r) :
    isAutoInlineImage r.org_file_name = false := by
  cases hin : isAutoInlineImage (attachName ctx st att i).1 with
  | true => simp [processAttachment, hin] at hr
  | false =>
    rcases hp : att.payload with _ | ⟨size, data⟩
    · simp [processAttachment, hin, hp] at hr
    · simp [processAttachment, hin, hp] at hr
      subst hr
      simpa using hin

theorem extractAttachLoop_inv (ctx : ExtractCtx) (msg : PyMessage)
    (baseDir emailId : String) :
    ∀ (n i : Nat) (st : FsState),
      match extractAttachLoop ctx msg baseDir emailId i n st with
      | .error _ => True
      | .ok (st2, recs, ws) =>
        ws.Nodup ∧ recs.length = ws.length ∧ (∀ q ∈ ws, q ∉ st.files) ∧
        (∀ q ∈ st.files, q ∈ st2.files) ∧
        (∀ r ∈ recs, isAutoInlineImage r.org_file_name = false) := by
  intro n
  induction n with
  | zero =>
    intro i st
    simp [extractAttachLoop, List.Nodup]
  | succ m ih =>
    intro i st
    unfold extractAttachLoop
    cases hatt : msg.attachments.get? i with
    | none => simp
    | some att =>
      simp only
      have hstep := processAttachment_facts ctx emailId baseDir st att i
      have hrec := ih (i + 1) (processAttachment ctx emailId baseDir st att i).1
      cases hloop : extractAttachLoop ctx msg baseDir emailId (i + 1) m
          (processAttachment ctx emailId baseDir st att i).1 with
      | error st2 => simp
      | ok out =>
        obtain ⟨st2, recs, ws⟩ := out
        rw [hloop] at hrec
        obtain ⟨hnd, hlen, hfresh, hmono, hinline⟩ := hrec
        cases hw : (processAttachment ctx emailId baseDir st att i).2.2 with
        | none =>
          rw [hw] at hstep
          obtain ⟨hf, hr⟩ := hstep
          simp only [hw, hr, Option.toList_none, List.nil_append]
          refine ⟨hnd, hlen, ?_, ?_, hinline⟩
          · intro q hq
            rw [← hf]
            exact hfresh q hq
          · intro q hq
            exact hmono q (hf ▸ hq)
        | some p =>
          rw [hw] at hstep
          obtain ⟨hpnew, hf, hrsome⟩ := hstep
          cases hr : (processAttachment ctx emailId baseDir st att i).2.1 with
          | none => rw [hr] at hrsome; cases hrsome
          | some r0 =>
            have horg : isAutoInlineImage r0.org_file_name = false :=
              processAttachment_record_org ctx emailId baseDir st att i r0 hr
            simp only [hw, hr, Option.toList_some, List.singleton_append,
              List.cons_append, List.nil_append]
            have hpnotws : p ∉ ws := by
              intro hmem
              have := hfresh p hmem
              rw [hf] at this
              exact this (List.mem_cons_self p st.files)
            refine ⟨List.nodup_cons.mpr ⟨hpnotws, hnd⟩, by simp [hlen], ?_, ?_, ?_⟩
            · intro q hq
              cases List.mem_cons.mp hq with
              | inl h => subst h; exact hpnew
              | inr h =>
                have := hfresh q h
                rw [hf] at this
                intro hqin
                exact this (List.mem_cons_of_mem p hqin)
            · intro q hq
              apply hmono
              rw [hf]
              exact List.mem_cons_of_mem p hq
            · intro r hrm
              cases List.mem_cons.mp hrm with
              | inl h => subst h; exact horg
              | inr h => exact hinline r h

/-- C6: whenever extract_attachments completes, the paths it wrote during the
call are pairwise distinct (the generated name plus the numeric-suffix
collision loop guarantee freshness even when two attachments share the
sanitized original name and timestamp), and one record is returned per
written attachment. -/
theorem extract_attachments_unique_writes (ctx : ExtractCtx) (msg : PyMessage)
    (base_dir email_id : String) (attach_count : Nat) (st : FsState)
    (out : FsState × List AttachRecord × List String)
    (h : extract_attachments ctx msg base_dir email_id attach_count st = .ok out) :
    out.2.2.Nodup ∧ out.2.1.length = out.2.2.length := by
  have := extractAttachLoop_inv ctx msg base_dir email_id attach_count 0 st
  unfold extract_attachments at h
  rw [h] at this
  obtain ⟨st2, recs, ws⟩ := out
  exact ⟨this.1, this.2.1⟩

/-- C7: an attachment whose computed sanitized name matches the
auto-generated inline-image pattern is skipped entirely — its loop iteration
writes no file and returns no record — and consequently no record of a
completed extraction carries an inline-pattern name. -/
theorem extract_attachments_skips_inline (ctx : ExtractCtx) (msg : PyMessage)
    (emailId baseDir : String) (st : FsState) (att : PyAttachment) (i : Nat)
    (attach_count : Nat) :
    (isAutoInlineImage (attachName ctx st att i).1 = true →
      processAttachment ctx emailId baseDir st att i =
        ((attachName ctx st att i).2, none, none)) ∧
    (∀ out, extract_attachments ctx msg baseDir emailId attach_count st = .ok out →
      ∀ r ∈ out.2.1, isAutoInlineImage r.org_file_name = false) := by
  constructor
  · intro hin
    unfold processAttachment
    simp only [hin, if_true]
  · intro out hout r hr
    have := extractAttachLoop_inv ctx msg baseDir emailId attach_count 0 st
    unfold extract_attachments at hout
    rw [hout] at this
    obtain ⟨st2, recs, ws⟩ := out
    exact this.2.2.2.2 r hr

/-- Two attachments that resolve to the same sanitized name report.pdf. -/
def attW : PyAttachment :=
  { recordSets := [], getName := some "report.pdf", payload := some (3, [1, 2, 3]) }

def msgW : PyMessage :=
  { recordSets := [], transportHeaders := none, subject := none, senderName := none,
    deliveryTime := none, plainTextBody := none, htmlBody := none, rtfBody := none,
    messageClassAttr := none, getMessageClassMethod := none, identifier := none,
    numberOfAttachments := some 2, attachments := [attW, attW] }

/-- A clock oracle that returns the same microsecond for both writes, forcing
the collision loop to fire. -/
def ctxW : ExtractCtx :=
  { micros := fun _ => 123456, fresh := fun _ => "abcdef01", attachBaseDir := "base" }

def fs0 : FsState := { files := [], clock := 0, uuidCtr := 0 }

def outW : FsState × List AttachRecord × List String :=
  ({ files := ["base/2021-06-01/42_123456_1.pdf", "base/2021-06-01/42_123456.pdf"],
     clock := 2, uuidCtr := 0 },
   [⟨"42", "report.pdf", "42_123456.pdf", "2021-06-01", 3⟩,
    ⟨"42", "report.pdf", "42_123456.pdf", "2021-06-01", 3⟩],
   ["base/2021-06-01/42_123456.pdf", "base/2021-06-01/42_123456_1.pdf"])

/-- Witness for C6: two identically-named attachments written in the same
microsecond still land on two distinct paths, with a record each. -/
theorem extract_attachments_unique_writes_witness :
    extract_attachments ctxW msgW "base/2021-06-01" "42" 2 fs0 = .ok outW ∧
    outW.2.2.Nodup ∧ outW.2.1.length = outW.2.2.length :=
  ⟨by rfl,
    extract_attachments_unique_writes ctxW msgW "base/2021-06-01" "42" 2 fs0 outW (by rfl)⟩

def attInline : PyAttachment :=
  { recordSets := [], getName := some "image002.png", payload := some (5, [1, 2, 3, 4, 5]) }

/-- Witness for C7: an attachment sanitized to image002.png is skipped with
no write and no record. -/
theorem extract_attachments_skips_inline_witness :
    isAutoInlineImage (attachName ctxW fs0 attInline 0).1 = true ∧
    processAttachment ctxW "42" "base/2021-06-01" fs0 attInline 0 =
      ((attachName ctxW fs0 attInline 0).2, none, none) :=
  ⟨by decide,
    (extract_attachments_skips_inline ctxW msgW "42" "base/2021-06-01" fs0 attInline 0 0).1
      (by decide)⟩

/-! ## Persistence Layer (db_actions.py)

The SQLite store is modelled as two lists of rows plus autoincrement
counters.  Storage-level failures are injected by an oracle consulted per
statement execution; the with-block semantics (commit on normal exit,
rollback on any exception) appear as the caller keeping the original store
whenever an error is returned. -/

/-- The fund_mail schema of create_db_tables: note that it has msg_kind and
folder_path columns, and that the attachment table names org_file_name and
phy_file_name, not file_name. -/
def fundMailCols : List String :=
  ["id", "email_id", "subject", "sender_address", "sender_name", "from_address",
   "from_name", "to_recipients", "cc_recipients", "email_time", "kst_time",
   "content", "msg_kind", "folder_path"]

def fundMailAttachCols : List String :=
  ["id", "parent_id", "email_id", "save_folder", "org_file_name", "phy_file_name"]

structure MailRow where
  id : Nat
  email_id : String
  subject : String
  sender_address : String
  sender_name : String
  from_address : String
  from_name : String
  to_recipients : String
  cc_recipients : String
  email_time : String
  kst_time : String
  content : String
  /-- Not in the INSERT column list, hence NULL. -/
  msg_kind : Option String
  /-- Not in the INSERT column list, hence NULL. -/
  folder_path : Option String
deriving DecidableEq

structure AttachRow where
  id : Nat
  parent_id : Nat
  email_id : String
  save_folder : String
  org_file_name : Option String
  phy_file_name : Option String
deriving DecidableEq

structure Store where
  fund_mail : List MailRow
  fund_mail_attach : List AttachRow
  nextMailId : Nat
  nextAttachId : Nat
deriving DecidableEq

/-- The normalized record built by main.extract_email_data.  The dict keys
are modelled as fields; attach_files is only present (`some`) when the
attachment count was retrieved successfully. -/
structure EmailData where
  email_id : String
  subject : String
  sender_address : String
  sender_name : String
  from_address : String
  from_name : String
  to_recipients : String
  cc_recipients : String
  email_time : String
  kst_time : String
  content : String
  msg_kind : String
  folder_path : String
  note : Option String
  attachments : List AttachRecord
  attach_files : Option (List AttachRecord)
deriving DecidableEq

inductive SqlValue where
  | s (v : String)
  | i (v : Int)
deriving DecidableEq

/-- The attachment dict produced by extract_attachments, as a key lookup: it
has email_id / org_file_name / phy_file_name / save_folder / file_size and
nothing else — in particular no file_name key. -/
def attachRecordLookup (r : AttachRecord) : String → Option SqlValue
  | "email_id" => some (.s r.email_id)
  | "org_file_name" => some (.s r.org_file_name)
  | "phy_file_name" => some (.s r.phy_file_name)
  | "save_folder" => some (.s r.save_folder)
  | "file_size" => some (.i r.file_size)
  | _ => none

/-- The attach_rows list comprehension of save_email_data_to_db: it reads the
keys email_id, save_folder and file_name from each attachment dict; a missing
key raises KeyError (which is not an sqlite3.Error). -/
def buildAttachRow (parent_id : Nat) (a : AttachRecord) :
    Option (Nat × SqlValue × SqlValue × SqlValue) := do
  let e ← attachRecordLookup a "email_id"
  let sf ← attachRecordLookup a "save_folder"
  let fn ← attachRecordLookup a "file_name"
  return (parent_id, e, sf, fn)

/-- Statement preparation: every named column must exist in the schema, else
sqlite raises OperationalError before any row is bound (also for an empty
executemany parameter list). -/
def stmtColsOk (cols schema : List String) : Bool := cols.all (schema.contains ·)

inductive RunErr where
  | sqlite
  | keyErr
deriving DecidableEq

inductive DbError where
  | dbWriteError
  | keyError
  | valueError
deriving DecidableEq

def sqlValueStr : SqlValue → String
  | .s v => v
  | .i v => toString v

def mailRowOf (pid : Nat) (e : EmailData) : MailRow :=
  ⟨pid, e.email_id, e.subject, e.sender_address, e.sender_name, e.from_address,
   e.from_name, e.to_recipients, e.cc_recipients, e.email_time, e.kst_time,
   e.content, none, none⟩

/-- Row executions of the executemany body (unreachable for the shipped
schema, kept for completeness of the embedding). -/
def execAttachRows (oracle : Nat → Bool) :
    List (Nat × SqlValue × SqlValue × SqlValue) → Store → Nat →
    Except (RunErr × Nat) (Store × Nat)
  | [], st, ctr => .ok (st, ctr)
  | (pid, e, sf, _fn) :: rest, st, ctr =>
    if oracle ctr then .error (.sqlite, ctr)
    else
      execAttachRows oracle rest
        { st with
          fund_mail_attach := st.fund_mail_attach ++
            [⟨st.nextAttachId, pid, sqlValueStr e, sqlValueStr sf, none, none⟩],
          nextAttachId := st.nextAttachId + 1 }
        (ctr + 1)

def insertMailRow (st : Store) (e : EmailData) : Store :=
  { st with
    fund_mail := st.fund_mail ++ [mailRowOf st.nextMailId e],
    nextMailId := st.nextMailId + 1 }

/-- The body of the with-block of save_email_data_to_db, on a draft store. -/
def saveLoop (oracle : Nat → Bool) :
    List EmailData → Store → Nat → Except (RunErr × Nat) (Store × Nat)
  | [], st, ctr => .ok (st, ctr)
  | e :: rest, st, ctr =>
    if oracle ctr then .error (.sqlite, ctr)
    else
      match (e.attach_files.getD []).mapM (buildAttachRow st.nextMailId) with
      | none => .error (.keyErr, ctr + 1)
      | some rows =>
        if stmtColsOk ["parent_id", "email_id", "save_folder", "file_name"]
            fundMailAttachCols then
          match execAttachRows oracle rows (insertMailRow st e) (ctr + 1) with
          | .ok (st2, ctr2) => saveLoop oracle rest st2 ctr2
          | .error err => .error err
        else .error (.sqlite, ctr + 1)

/-- db_actions.save_email_data_to_db: an empty db_path raises ValueError
before the try; inside it, the whole batch is one transaction (the connect
context manager commits on success, rolls back on any exception), and
sqlite3.Error is converted to DBWriteError while other exceptions (the
KeyError from the file_name lookup) escape unchanged. -/
def save_email_data_to_db (oracle : Nat → Bool) (email_data_list : List EmailData)
    (db_path : String) (store : Store) (ctr : Nat) : (Store × Nat) × Option DbError :=
  if db_path = "" then ((store, ctr), some .valueError)
  else
    match saveLoop oracle email_data_list store ctr with
    | .ok (st, c) => ((st, c), none)
    | .error (.sqlite, c) => ((store, c), some .dbWriteError)
    | .error (.keyErr, c) => ((store, c), some .keyError)

def expectedMailRows : Nat → List EmailData → List MailRow
  | _, [] => []
  | startId, e :: rest => mailRowOf startId e :: expectedMailRows (startId + 1) rest

theorem saveLoop_cons_error (oracle : Nat → Bool) (e : EmailData)
    (rest : List EmailData) (st : Store) (ctr : Nat) :
    ∃ err, saveLoop oracle (e :: rest) st ctr = .error err := by
  unfold saveLoop
  by_cases ho : oracle ctr = true
  · exact ⟨(.sqlite, ctr), by rw [if_pos ho]⟩
  · rw [if_neg ho]
    cases hm : (e.attach_files.getD []).mapM (buildAttachRow st.nextMailId) with
    | none => exact ⟨(.keyErr, ctr + 1), by simp only [hm]⟩
    | some rows =>
      refine ⟨(.sqlite, ctr + 1), ?_⟩
      simp only [hm]
      rw [if_neg (by decide)]

theorem saveLoop_ok_elim (oracle : Nat → Bool) (batch : List EmailData)
    (st : Store) (ctr : Nat) (out : Store × Nat)
    (h : saveLoop oracle batch st ctr = .ok out) : batch = [] ∧ out = (st, ctr) := by
  cases batch with
  | nil =>
    refine ⟨rfl, ?_⟩
    unfold saveLoop at h
    cases h
    rfl
  | cons e rest =>
    obtain ⟨err, herr⟩ := saveLoop_cons_error oracle e rest st ctr
    rw [herr] at h
    cases h

/-- C2: save_batch is transactional.  On a normal exit the store holds the
whole batch's mail rows appended in order; on any error the caller's store is
exactly the pre-call store (no partial batch is ever observable); and every
storage-level (sqlite) failure inside the transaction surfaces to the caller
as the persistence error DBWriteError with the store unchanged. -/
theorem save_batch_atomic (oracle : Nat → Bool) (batch : List EmailData)
    (db_path : String) (store : Store) (ctr : Nat) (hdb : db_path ≠ "") :
    (∀ st2 c2, save_email_data_to_db oracle batch db_path store ctr = ((st2, c2), none) →
      st2.fund_mail = store.fund_mail ++ expectedMailRows store.nextMailId batch ∧
      st2.fund_mail_attach = store.fund_mail_attach) ∧
    (∀ st2 c2 err, save_email_data_to_db oracle batch db_path store ctr =
        ((st2, c2), some err) → st2 = store) ∧
    (∀ c2, saveLoop oracle batch store ctr = .error (.sqlite, c2) →
      save_email_data_to_db oracle batch db_path store ctr =
        ((store, c2), some .dbWriteError)) := by
  refine ⟨?_, ?_, ?_⟩
  · intro st2 c2 h
    unfold save_email_data_to_db at h
    rw [if_neg hdb] at h
    cases hl : saveLoop oracle batch store ctr with
    | ok out =>
      obtain ⟨hbatch, hout⟩ := saveLoop_ok_elim oracle batch store ctr out hl
      subst hbatch
      rw [hl] at h
      cases h
      subst hout
      constructor
      · simp [expectedMailRows]
      · simp
    | error err =>
      rw [hl] at h
      obtain ⟨e1, c1⟩ := err
      cases e1 <;> simp at h
  · intro st2 c2 err h
    unfold save_email_data_to_db at h
    rw [if_neg hdb] at h
    cases hl : saveLoop oracle batch store ctr with
    | ok out =>
      rw [hl] at h
      cases h
    | error e2 =>
      rw [hl] at h
      obtain ⟨e1, c1⟩ := e2
      cases e1 <;> simp at h <;> exact h.1.1.symm
  · intro c2 h
    unfold save_email_data_to_db
    rw [if_neg hdb, h]

/-- Witness for C2: the empty batch commits with no rows and no error, and a
concrete mid-batch storage failure (oracle failing the first statement of the
second record) rolls everything back and raises DBWriteError. -/
theorem save_batch_atomic_witness :
    ("db" : String) ≠ "" ∧
    ((∀ st2 c2, save_email_data_to_db (fun _ => false) [] "db"
        ⟨[], [], 1, 1⟩ 0 = ((st2, c2), none) →
      st2.fund_mail = ([] : List MailRow) ++ expectedMailRows 1 [] ∧
      st2.fund_mail_attach = ([] : List AttachRow)) ∧
    (∀ st2 c2 err, save_email_data_to_db (fun _ => false) [] "db"
        ⟨[], [], 1, 1⟩ 0 = ((st2, c2), some err) → st2 = ⟨[], [], 1, 1⟩) ∧
    (∀ c2, saveLoop (fun _ => false) [] ⟨[], [], 1, 1⟩ 0 = .error (.sqlite, c2) →
      save_email_data_to_db (fun _ => false) [] "db" ⟨[], [], 1, 1⟩ 0 =
        ((⟨[], [], 1, 1⟩, c2), some .dbWriteError))) :=
  ⟨by decide, save_batch_atomic (fun _ => false) [] "db" ⟨[], [], 1, 1⟩ 0 (by decide)⟩

/-- A concrete normalized record with one attachment, as extract_email_data
would produce it. -/
def emailDataBug : EmailData :=
  { email_id := "42", subject := "hello", sender_address := "a@x.com",
    sender_name := "A", from_address := "a@x.com", from_name := "A",
    to_recipients := "B <b@x.com>", cc_recipients := "", email_time := "t",
    kst_time := "2021-06-01 09:00:00", content := "body", msg_kind := "sent",
    folder_path := "Sent Items", note := none, attachments := [],
    attach_files := some [⟨"42", "a.txt", "42_000001.txt", "2021-06-01", 3⟩] }

/-- C3 failing input: saving a record with one attachment crashes with a
KeyError on the file_name dict key (the attachment dicts only carry
org_file_name / phy_file_name), the transaction rolls back, and even the
email row that was drafted names no msg_kind / folder_path columns, so the
classification and folder path computed by the pipeline are never persisted.
The executemany statement also names a file_name column absent from the
fund_mail_attach schema, so even an attachment-free record fails with
DBWriteError. -/
theorem save_batch_drops_fields_bug :
    save_email_data_to_db (fun _ => false) [emailDataBug] "db" ⟨[], [], 1, 1⟩ 0 =
      ((⟨[], [], 1, 1⟩, 1), some .keyError) ∧
    (mailRowOf 1 emailDataBug).msg_kind = none ∧
    (mailRowOf 1 emailDataBug).folder_path = none ∧
    emailDataBug.msg_kind = "sent" ∧ emailDataBug.folder_path = "Sent Items" ∧
    save_email_data_to_db (fun _ => false)
        [{ emailDataBug with attach_files := some [] }] "db" ⟨[], [], 1, 1⟩ 0 =
      ((⟨[], [], 1, 1⟩, 1), some .dbWriteError) ∧
    stmtColsOk ["parent_id", "email_id", "save_folder", "file_name"]
      fundMailAttachCols = false ∧
    fundMailAttachCols.contains "org_file_name" = true ∧
    fundMailAttachCols.contains "phy_file_name" = true := by
  refine ⟨by decide, rfl, rfl, rfl, rfl, by decide, by decide, by decide, by decide⟩

/-! ## Timestamps: convert_to_kst (helper.py 283-297)

Python datetime arithmetic is embedded through the standard proleptic
Gregorian civil-from-days / days-from-civil conversions; astimezone to a
fixed offset is epoch arithmetic followed by the conversion back to civil
components, raising OverflowError when the result leaves the supported year
range 1..9999. -/

def daysFromCivil (y m d : Int) : Int :=
  let y2 := if m ≤ 2 then y - 1 else y
  let era := y2.fdiv 400
  let yoe := y2 - era * 400
  let mp := if m > 2 then m - 3 else m + 9
  let doy := (153 * mp + 2).fdiv 5 + d - 1
  let doe := yoe * 365 + yoe.fdiv 4 - yoe.fdiv 100 + doy
  era * 146097 + doe - 719468

def civilFromDays (z : Int) : Int × Int × Int :=
  let z2 := z + 719468
  let era := z2.fdiv 146097
  let doe := z2 - era * 146097
  let yoe := (doe - doe.fdiv 1460 + doe.fdiv 36524 - doe.fdiv 146096).fdiv 365
  let y := yoe + era * 400
  let doy := doe - (365 * yoe + yoe.fdiv 4 - yoe.fdiv 100)
  let mp := (5 * doy + 2).fdiv 153
  let d := doy - (153 * mp + 2).fdiv 5 + 1
  let m := mp + (if mp < 10 then 3 else -9)
  (if m ≤ 2 then y + 1 else y, m, d)

/-- Seconds since the epoch of the civil components read as UTC. -/
def secondsFromCivil (dt : PyDatetime) : Int :=
  86400 * daysFromCivil dt.year dt.month dt.day +
    3600 * dt.hour + 60 * dt.minute + dt.second

def civilFromSeconds (t : Int) : Int × Int × Int × Int × Int × Int :=
  let days := t.fdiv 86400
  let sod := t - 86400 * days
  let ymd := civilFromDays days
  (ymd.1, ymd.2.1, ymd.2.2, sod.fdiv 3600, (sod.fdiv 60) % 60, sod % 60)

def padNat (w n : Nat) : String :=
  let s := toString n
  strOfChars (List.replicate (w - s.length) '0') ++ s

/-- strftime %Y-%m-%d %H:%M:%S with zero padding (four digits for the
year). -/
def fmtYmdHms (c : Int × Int × Int × Int × Int × Int) : String :=
  padNat 4 c.1.toNat ++ "-" ++ padNat 2 c.2.1.toNat ++ "-" ++ padNat 2 c.2.2.1.toNat ++
    " " ++ padNat 2 c.2.2.2.1.toNat ++ ":" ++ padNat 2 c.2.2.2.2.1.toNat ++ ":" ++
    padNat 2 c.2.2.2.2.2.toNat

def tzSuffix : Option Int → String
  | none => ""
  | some off =>
    let sign := if off < 0 then "-" else "+"
    let a := off.natAbs
    sign ++ padNat 2 (a / 3600) ++ ":" ++ padNat 2 (a % 3600 / 60)

/-- Python str(datetime): the isoformat with a space separator (microseconds
are not modelled; informational only for the failure branch). -/
def pyStrDatetime (dt : PyDatetime) : String :=
  fmtYmdHms (dt.year, dt.month, dt.day, dt.hour, dt.minute, dt.second) ++ tzSuffix dt.tz

/-- helper.convert_to_kst: None gives the empty string; a naive datetime is
reinterpreted as UTC; the instant is shifted to UTC+9 and formatted; any
exception inside the try (the astimezone overflow outside years 1..9999)
degrades to str of the (by then tz-aware) input. -/
def convert_to_kst : Option PyDatetime → String
  | none => ""
  | some dt =>
    let dtU := if dt.tz = none then { dt with tz := some 0 } else dt
    let c := civilFromSeconds (secondsFromCivil dtU - dtU.tz.getD 0 + 32400)
    if 1 ≤ c.1 ∧ c.1 ≤ 9999 then fmtYmdHms c else pyStrDatetime dtU

/-! ## main.extract_email_content and main.extract_email_data -/

/-- The ambient collaborators of the pipeline: extraction oracles, the email
stdlib, charset-normalizer, and the striprtf conversion (`none` models the
ImportError or a conversion failure, both swallowed). -/
structure PipelineCtx where
  ex : ExtractCtx
  emailLib : PyEmailLib
  cn : CharsetNormalizer
  rtfToText : String → Option String

/-- Python truthiness of a bytes-or-str body. -/
def bodyTruthy : RawText → Bool
  | .bytes b => !b.isEmpty
  | .str s => s ≠ ""

/-- The RTF leg of extract_email_content: fully exception-guarded, falling
back to the empty string. -/
def contentRtf (ctx : PipelineCtx) (msg : PyMessage) : String :=
  match msg.rtfBody with
  | some bd =>
    if bodyTruthy bd then
      let textOpt : Option String :=
        match bd with
        | .str s => ctx.rtfToText s
        | .bytes b =>
          match byte_decode ctx.cn b with
          | some t => ctx.rtfToText t
          | none => none
      match textOpt with
      | some t => if pyStrip t ≠ "" then t else ""
      | none => ""
    else ""
  | none => ""

def contentHtml (ctx : PipelineCtx) (msg : PyMessage) : Option String :=
  match msg.htmlBody with
  | some bd =>
    if bodyTruthy bd then
      match bd with
      | .bytes b => byte_decode ctx.cn b
      | .str s => if pyStrip s ≠ "" then some s else some (contentRtf ctx msg)
    else some (contentRtf ctx msg)
  | none => some (contentRtf ctx msg)

/-- main.extract_email_content: plain text, then HTML, then RTF, then the
empty string; bytes bodies go through byte_decode (whose exceptions, never
reached with the default candidates, would propagate: `none`). -/
def extract_email_content (ctx : PipelineCtx) (msg : PyMessage) : Option String :=
  match msg.plainTextBody with
  | some bd =>
    if bodyTruthy bd then
      match bd with
      | .bytes b => byte_decode ctx.cn b
      | .str s => if pyStrip s ≠ "" then some s else contentHtml ctx msg
    else contentHtml ctx msg
  | none => contentHtml ctx msg

def emailIdOf (msg : PyMessage) : String :=
  match msg.identifier with
  | some n => toString n
  | none => ""

/-- pathlib join where an empty component is dropped. -/
def pyJoinPath (base s : String) : String := if s = "" then base else base ++ "/" ++ s

def attachCountNote : String := "첨부파일 갯수를 가져오는 데 실패했습니다. (PST 손상 by ChatGPT)"

def mkEmailData (msg : PyMessage) (folder_path subject sender_name : String)
    (sf : String × String) (rcp : String × String) (timePair : String × String)
    (content msg_kind : String) (note : Option String)
    (attach_files : Option (List AttachRecord)) : EmailData :=
  { email_id := emailIdOf msg, subject := subject, sender_address := sf.1,
    sender_name := sender_name, from_address := sf.2, from_name := sender_name,
    to_recipients := rcp.1, cc_recipients := rcp.2, email_time := timePair.1,
    kst_time := timePair.2, content := content, msg_kind := msg_kind,
    folder_path := folder_path, note := note, attachments := [],
    attach_files := attach_files }

/-- main.extract_email_data.  The result carries the produced record, the new
filesystem state, and the attachment directory handed to extract_attachments
(exposed for the specification); `Except.error` is the propagated exception
from extract_attachments. -/
def extract_email_data (ctx : PipelineCtx) (msg : PyMessage) (folder_path : String)
    (st : FsState) : Except FsState (EmailData × FsState × String) :=
  let subject := msg.subject.getD ""
  let sender_name := msg.senderName.getD ""
  let sf := get_sender_from_address msg
  let rcp := recipients_from_headers ctx.emailLib (msg.transportHeaders.getD (.bytes []))
  let timePair : String × String :=
    match msg.deliveryTime with
    | some dtv => (pyStrDatetime dtv, convert_to_kst (some dtv))
    | none => ("", "")
  match extract_email_content ctx msg with
  | none => .error st
  | some content =>
    let msg_kind := determine_message_kind msg folder_path
    let ymd := strOfChars (timePair.2.data.take 10)
    let attach_dir := pyJoinPath ctx.ex.attachBaseDir ymd
    let attach_count : Int := msg.numberOfAttachments.getD (-1)
    if attach_count < 0 then
      .ok (mkEmailData msg folder_path subject sender_name sf rcp timePair content
            msg_kind (some attachCountNote) none, st, attach_dir)
    else
      match extract_attachments ctx.ex msg attach_dir (emailIdOf msg)
          attach_count.toNat st with
      | .error st2 => .error st2
      | .ok (st2, recs, _ws) =>
        .ok (mkEmailData msg folder_path subject sender_name sf rcp timePair content
              msg_kind none (some recs), st2, attach_dir)

/-- C10: the record's kst_time is convert_to_kst of the delivery timestamp
and the attachment directory is the base directory joined with the first ten
characters (the KST date) of that value; convert_to_kst maps a missing
timestamp to the empty string, reinterprets a naive input as UTC and shifts
the instant by +9 hours before formatting it as YYYY-MM-DD HH:MM:SS, and
never raises — an out-of-range shift degrades to the str rendering of the
input. -/
theorem extract_email_data_kst_spec (ctx : PipelineCtx) (msg : PyMessage)
    (fp : String) (st : FsState) (dt : PyDatetime)
    (h : msg.deliveryTime = some dt) :
    (match extract_email_data ctx msg fp st with
     | .ok (data, _, dirUsed) =>
        data.kst_time = convert_to_kst (some dt) ∧
        data.email_time = pyStrDatetime dt ∧
        dirUsed = pyJoinPath ctx.ex.attachBaseDir
          (strOfChars ((convert_to_kst (some dt)).data.take 10))
     | .error _ => True) ∧
    convert_to_kst none = "" ∧
    (∀ d : PyDatetime, d.tz = none →
      convert_to_kst (some d) =
        (if 1 ≤ (civilFromSeconds (secondsFromCivil d + 32400)).1 ∧
            (civilFromSeconds (secondsFromCivil d + 32400)).1 ≤ 9999 then
          fmtYmdHms (civilFromSeconds (secondsFromCivil d + 32400))
        else pyStrDatetime { d with tz := some 0 })) := by
  refine ⟨?_, rfl, ?_⟩
  · unfold extract_email_data
    rw [h]
    cases hc : extract_email_content ctx msg with
    | none => simp
    | some content =>
      simp only
      by_cases hn : (msg.numberOfAttachments.getD (-1) : Int) < 0
      · rw [if_pos hn]
        exact ⟨rfl, rfl, rfl⟩
      · rw [if_neg hn]
        cases hx : extract_attachments ctx.ex msg
            (pyJoinPath ctx.ex.attachBaseDir
              (strOfChars ((convert_to_kst (some dt)).data.take 10)))
            (emailIdOf msg) (msg.numberOfAttachments.getD (-1)).toNat st with
        | error st2 => simp [hx]
        | ok out =>
          obtain ⟨st2, recs, ws⟩ := out
          simp [hx]
          exact ⟨rfl, rfl⟩
  · intro d hd
    have hsec : secondsFromCivil { d with tz := some 0 } = secondsFromCivil d := rfl
    simp [convert_to_kst, hd, hsec]

def pipelineCtxW : PipelineCtx :=
  { ex := ctxW, emailLib := pyEmailLibW, cn := fun _ => none, rtfToText := fun _ => none }

def dtW : PyDatetime := ⟨2021, 6, 1, 3, 4, 5, none⟩

def msgKst : PyMessage :=
  { recordSets := [], transportHeaders := none, subject := some "Hi",
    senderName := some "A", deliveryTime := some dtW,
    plainTextBody := some (.str "hello"), htmlBody := none, rtfBody := none,
    messageClassAttr := some "IPM.Note", getMessageClassMethod := none,
    identifier := some 42, numberOfAttachments := some 0, attachments := [] }

/-- Witness for C10 at a concrete naive timestamp: 2021-06-01 03:04:05 UTC
renders as 2021-06-01 12:04:05 KST and the attachment directory is the base
joined with 2021-06-01. -/
theorem extract_email_data_kst_spec_witness :
    msgKst.deliveryTime = some dtW ∧
    (match extract_email_data pipelineCtxW msgKst "Inbox" fs0 with
     | .ok (data, _, dirUsed) =>
        data.kst_time = convert_to_kst (some dtW) ∧
        data.email_time = pyStrDatetime dtW ∧
        dirUsed = pyJoinPath pipelineCtxW.ex.attachBaseDir
          (strOfChars ((convert_to_kst (some dtW)).data.take 10))
     | .error _ => True) ∧
    convert_to_kst (some dtW) = "2021-06-01 12:04:05" :=
  ⟨rfl, (extract_email_data_kst_spec pipelineCtxW msgKst "Inbox" fs0 dtW rfl).1,
    by decide⟩

/-! ## Folder Walker (main.py 195-236) -/

/-- helper.get_message_class steps 1 and 2 fall back to step 3, the
record-set scan, which is the same scan as get_property_from_record_sets at
PR_MESSAGE_CLASS (0x001A). -/
def get_message_class (msg : PyMessage) : String :=
  match msg.messageClassAttr with
  | some s => if s ≠ "" then s else
    match msg.getMessageClassMethod with
    | some t => if t ≠ "" then t else get_property_from_record_sets msg.recordSets 0x001A
    | none => get_property_from_record_sets msg.recordSets 0x001A
  | none =>
    match msg.getMessageClassMethod with
    | some t => if t ≠ "" then t else get_property_from_record_sets msg.recordSets 0x001A
    | none => get_property_from_record_sets msg.recordSets 0x001A

def isNoteMessage (msg : PyMessage) : Bool :=
  strStartsWith (toUpperStr (get_message_class msg)) "IPM.NOTE"

/-- A folder of the archive: name, contained messages, child folders. -/
inductive PFolder where
  | mk (name : String) (messages : List PyMessage) (subs : List PFolder)

/-- One per-message event of the walk: which message was attempted and
whether its build-and-persist completed (False = the per-message except
caught a failure and traversal moved on). -/
structure WalkEvent where
  msg : PyMessage
  ok : Bool

/-- The mutable state of a run: filesystem, SQLite store, statement
counter. -/
structure RunState where
  fs : FsState
  store : Store
  dbCtr : Nat

/-- Build one message record and hand it to the persistence layer as a
single-element batch; every exception ends up as a Bool, mirroring the
per-message try in walk_and_extract_emails. -/
def processOneMessage (ctx : PipelineCtx) (oracle : Nat → Bool) (dbPath : String)
    (msg : PyMessage) (folderPath : String) (rs : RunState) : RunState × Bool :=
  match extract_email_data ctx msg folderPath rs.fs with
  | .error fs2 => ({ rs with fs := fs2 }, false)
  | .ok (data, fs2, _dir) =>
    let sres := save_email_data_to_db oracle [data] dbPath rs.store rs.dbCtr
    ({ fs := fs2, store := sres.1.1, dbCtr := sres.1.2 }, sres.2.isNone)

/-- The message loop of walk_and_extract_emails: only messages whose class
starts with IPM.NOTE (case-insensitively) are processed; failures are logged
and skipped. -/
def walkMsgs (ctx : PipelineCtx) (oracle : Nat → Bool) (dbPath : String) :
    List PyMessage → String → RunState → RunState × List WalkEvent
  | [], _, rs => (rs, [])
  | m :: rest, current, rs =>
    if isNoteMessage m then
      let p := processOneMessage ctx oracle dbPath m current rs
      let r := walkMsgs ctx oracle dbPath rest current p.1
      (r.1, ⟨m, p.2⟩ :: r.2)
    else walkMsgs ctx oracle dbPath rest current rs

mutual

/-- main.walk_and_extract_emails: depth-first, messages before sub-folders,
every per-message or per-subfolder failure caught and logged. -/
def walk_and_extract_emails (ctx : PipelineCtx) (oracle : Nat → Bool) (dbPath : String) :
    PFolder → String → RunState → RunState × List WalkEvent
  | .mk name msgs subs, folder_path, rs =>
    let current :=
      if folder_path ≠ "" then folder_path ++ "/" ++ name
      else if name ≠ "Root" then name else ""
    let m := walkMsgs ctx oracle dbPath msgs current rs
    let sres := walkSubfolders ctx oracle dbPath subs current m.1
    (sres.1, m.2 ++ sres.2)

def walkSubfolders (ctx : PipelineCtx) (oracle : Nat → Bool) (dbPath : String) :
    List PFolder → String → RunState → RunState × List WalkEvent
  | [], _, rs => (rs, [])
  | f :: rest, current, rs =>
    let r1 := walk_and_extract_emails ctx oracle dbPath f current rs
    let r2 := walkSubfolders ctx oracle dbPath rest current r1.1
    (r2.1, r1.2 ++ r2.2)

end

mutual

/-- The qualifying messages of the folder tree in declared depth-first
order (the traversal the spec promises). -/
def dfsQualifying : PFolder → List PyMessage
  | .mk _ msgs subs => msgs.filter isNoteMessage ++ dfsQualifyingList subs

def dfsQualifyingList : List PFolder → List PyMessage
  | [] => []
  | f :: rest => dfsQualifying f ++ dfsQualifyingList rest

end

theorem walkMsgs_events (ctx : PipelineCtx) (oracle : Nat → Bool) (dbPath : String) :
    ∀ (msgs : List PyMessage) (cur : String) (rs : RunState),
      (walkMsgs ctx oracle dbPath msgs cur rs).2.map WalkEvent.msg =
        msgs.filter isNoteMessage := by
  intro msgs
  induction msgs with
  | nil => intro cur rs; simp [walkMsgs]
  | cons m rest ih =>
    intro cur rs
    unfold walkMsgs
    cases hq : isNoteMessage m with
    | true => simp [hq, ih]
    | false => simp [hq, ih]

theorem walk_dfs_aux (ctx : PipelineCtx) (oracle : Nat → Bool) (dbPath : String) :
    ∀ k : Nat,
      (∀ f : PFolder, sizeOf f ≤ k → ∀ (path : String) (rs : RunState),
        (walk_and_extract_emails ctx oracle dbPath f path rs).2.map WalkEvent.msg =
          dfsQualifying f) ∧
      (∀ l : List PFolder, sizeOf l ≤ k → ∀ (path : String) (rs : RunState),
        (walkSubfolders ctx oracle dbPath l path rs).2.map WalkEvent.msg =
          dfsQualifyingList l) := by
  intro k
  induction k with
  | zero =>
    constructor
    · intro f hf
      exfalso
      cases f with
      | mk name msgs subs => simp at hf
    · intro l hl
      exfalso
      cases l with
      | nil => simp at hl
      | cons f rest => simp at hl
  | succ n ih =>
    constructor
    · intro f hf path rs
      cases f with
      | mk name msgs subs =>
        have hsubs : sizeOf subs ≤ n := by
          simp at hf
          omega
        unfold walk_and_extract_emails
        simp only [List.map_append, dfsQualifying]
        rw [walkMsgs_events, ih.2 subs hsubs]
    · intro l hl path rs
      cases l with
      | nil => simp [walkSubfolders, dfsQualifyingList]
      | cons f rest =>
        have hf : sizeOf f ≤ n := by simp at hl; omega
        have hrest : sizeOf rest ≤ n := by simp at hl; omega
        unfold walkSubfolders
        simp only [List.map_append, dfsQualifyingList]
        rw [ih.1 f hf, ih.2 rest hrest]

/-- C9: whatever the per-message outcomes (extraction exceptions, attachment
read failures, persistence errors injected by the storage oracle), the walk
attempts exactly the qualifying messages of the tree, in depth-first order —
messages of a folder first, then its sub-folders — so no per-message failure
ever aborts or skips the rest of the run. -/
theorem walk_never_aborts (ctx : PipelineCtx) (oracle : Nat → Bool) (dbPath : String)
    (folder : PFolder) (path : String) (rs : RunState) :
    (walk_and_extract_emails ctx oracle dbPath folder path rs).2.map WalkEvent.msg =
      dfsQualifying folder :=
  (walk_dfs_aux ctx oracle dbPath (sizeOf folder)).1 folder le_rfl path rs

end PstUtils
